import Mathlib

/-!
Verification development for the Phase III todo-chatbot backend:
a shallow embedding of the MCP task tools (`mcp/tools.py`, `mcp/server.py`,
`mcp/schemas.py`), the agent orchestration loop (`ai/runner.py`), the
conversation service (`services/conversation_service.py`), the mock fallback
runner (`ai/mock_runner.py`) and the chat endpoint dispatch (`routes/chat.py`),
together with proofs of the specified behavioural properties.

Timestamps (`datetime.utcnow()`) are modelled by a logical clock carried in
each store: successive observations of the clock yield strictly increasing
natural numbers.
-/

namespace TodoChat

/-- JSON-like values: the payloads exchanged between the reasoning engine,
the tool dispatch layer and the tools (Python dicts / lists / scalars). -/
inductive Value where
  | s (x : String)
  | n (x : Int)
  | b (x : Bool)
  | null
  | arr (xs : List Value)
  | obj (kvs : List (String × Value))

/-- `d.get(k)` on a Python dict modelled as an association list (first match). -/
def getField (kvs : List (String × Value)) (k : String) : Option Value :=
  (kvs.find? (fun p => p.1 == k)).map (fun p => p.2)

/-- `d[k] = v` on a Python dict: overwrite the entry if the key is present
(keeping its position), otherwise append it. -/
def setKey (kvs : List (String × Value)) (k : String) (v : Value) : List (String × Value) :=
  if kvs.any (fun p => p.1 == k) then
    kvs.map (fun p => if p.1 == k then (k, v) else p)
  else
    kvs ++ [(k, v)]

/-- Curly-brace character (written by code point to keep braces out of
string literals). -/
def isBraceChar (c : Char) : Bool := c == Char.ofNat 123 || c == Char.ofNat 125

/-- Python `str.strip` over the two brace characters. -/
def stripBraces (s : String) : String :=
  let l := s.toList.dropWhile isBraceChar
  String.mk ((l.reverse.dropWhile isBraceChar).reverse)

def isHexDigitChar (c : Char) : Bool :=
  c.isDigit || ('a' ≤ c && c ≤ 'f') || ('A' ≤ c && c ≤ 'F')

/-- All occurrences of a non-empty marker removed, left to right (Python
`s.replace(pat, "")`); the scan is fuelled by the list length so the
recursion is structural. -/
def removeAux (pat : List Char) : Nat → List Char → List Char
  | 0, l => l
  | _ + 1, [] => []
  | fuel + 1, c :: rest =>
    if pat.isPrefixOf (c :: rest) then
      removeAux pat fuel (List.drop (pat.length - 1) rest)
    else
      c :: removeAux pat fuel rest

/-- Python `s.replace(pat, "")` for a non-empty `pat`. -/
def removeAll (s pat : String) : String :=
  String.mk (removeAux pat.toList s.toList.length s.toList)

/-- Python `str.lower()`. -/
def lowerStr (s : String) : String := String.mk (s.toList.map Char.toLower)

/-- Canonical form of a user identifier, modelling Python `uuid.UUID(s)`
(as called by every tool): strip `urn:` / `uuid:` markers and surrounding
braces, drop hyphens, and require exactly 32 hexadecimal digits; the result
is the lower-cased digit string (UUIDs compare by value).  `none` models the
raised `ValueError` (ill-formed identifier).  The exotic inputs that
`int(s, 16)` additionally tolerates (sign characters, underscore grouping)
are not modelled. -/
def pyUuidCanon (s : String) : Option String :=
  let t := removeAll (removeAll s "urn:") "uuid:"
  let t := removeAll (stripBraces t) "-"
  let t := lowerStr t
  if t.length == 32 && t.toList.all isHexDigitChar then some t else none

/-- A fixed well-formed user identifier (all-zero UUID digits), used in
concrete witnesses. -/
def uuidA : String := "00000000000000000000000000000000"

/-- A second well-formed user identifier, distinct from `uuidA`. -/
def uuidB : String := "11111111111111111111111111111111"

/-! ## Tool input schemas (`mcp/schemas.py`)

The declared JSON schemas are data handed to the reasoning engine; the
dispatch path (`execute_mcp_tool`) never consults them.  `description`
strings inside the schemas are documentation-only and omitted. -/

/-- One property entry of a JSON-Schema object schema (the subset the tool
schemas use). -/
structure PropSchema where
  type : String
  minLength : Option Nat
  maxLength : Option Nat
  minimum : Option Int
  enum : Option (List String)
  deriving DecidableEq, Repr

structure ObjectSchema where
  properties : List (String × PropSchema)
  required : List String
  additionalProperties : Bool
  deriving DecidableEq, Repr

def strProp : PropSchema :=
  { type := "string", minLength := none, maxLength := none, minimum := none, enum := none }

def ADD_TASK_SCHEMA : ObjectSchema :=
  { properties := [
      ("user_id", strProp),
      ("title", { strProp with minLength := some 1, maxLength := some 200 }),
      ("description", { strProp with maxLength := some 1000 })],
    required := ["user_id", "title"],
    additionalProperties := false }

def LIST_TASKS_SCHEMA : ObjectSchema :=
  { properties := [
      ("user_id", strProp),
      ("status", { strProp with enum := some ["all", "pending", "completed"] })],
    required := ["user_id"],
    additionalProperties := false }

def intIdProp : PropSchema :=
  { type := "integer", minLength := none, maxLength := none, minimum := some 1, enum := none }

def COMPLETE_TASK_SCHEMA : ObjectSchema :=
  { properties := [("user_id", strProp), ("task_id", intIdProp)],
    required := ["user_id", "task_id"],
    additionalProperties := false }

def DELETE_TASK_SCHEMA : ObjectSchema :=
  { properties := [("user_id", strProp), ("task_id", intIdProp)],
    required := ["user_id", "task_id"],
    additionalProperties := false }

def UPDATE_TASK_SCHEMA : ObjectSchema :=
  { properties := [
      ("user_id", strProp),
      ("task_id", intIdProp),
      ("title", { strProp with minLength := some 1, maxLength := some 200 }),
      ("description", { strProp with maxLength := some 1000 })],
    required := ["user_id", "task_id"],
    additionalProperties := false }

/-- Does a value satisfy one property schema (JSON-Schema semantics for the
constraint kinds the tool schemas use)? -/
def valueMatches (p : PropSchema) (v : Value) : Bool :=
  match p.type, v with
  | "string", .s x =>
      (match p.minLength with | some m => decide (m ≤ x.length) | none => true) &&
      (match p.maxLength with | some m => decide (x.length ≤ m) | none => true) &&
      (match p.enum with | some es => es.contains x | none => true)
  | "integer", .n k =>
      (match p.minimum with | some m => decide (m ≤ k) | none => true)
  | _, _ => false

/-- JSON-Schema validation of an argument mapping against an object schema:
all required keys present, and (`additionalProperties: false`) every supplied
key is a declared property whose value satisfies its constraints. -/
def schemaAccepts (sc : ObjectSchema) (args : List (String × Value)) : Bool :=
  sc.required.all (fun k => args.any (fun p => p.1 == k)) &&
  args.all (fun kv =>
    match sc.properties.find? (fun p => p.1 == kv.1) with
    | some pr => valueMatches pr.2 kv.2
    | none => sc.additionalProperties)

/-! ## Task store (`models.py` `Task`) -/

/-- A task row.  `user_id` holds the canonical UUID digit string. -/
structure Task where
  id : Int
  user_id : String
  title : String
  description : Option String
  completed : Bool
  created_at : Nat
  updated_at : Nat
  deriving DecidableEq, Repr

/-- The tasks table plus the auto-increment counter and the logical UTC
clock. -/
structure TaskStore where
  tasks : List Task
  nextId : Int
  clock : Nat
  deriving DecidableEq, Repr

def emptyTaskStore : TaskStore := { tasks := [], nextId := 1, clock := 0 }

/-- The error mapping every tool returns for an ill-formed `user_id`. -/
def validationErrorValue (user_id : String) : Value :=
  .obj [("error", .s "validation_error"),
        ("message", .s ("Invalid user_id format: " ++ user_id))]

/-- The error mapping returned when no task with `task_id` exists for the
calling owner (identical whether the task is absent or owned by someone
else). -/
def notFoundValue (task_id : Int) : Value :=
  .obj [("error", .s "not_found"),
        ("message", .s ("Task " ++ toString task_id ++ " not found"))]

/-- `internal_error` mapping produced when an INSERT/UPDATE value exceeds a
`VARCHAR(n)` column.  The backend is PostgreSQL (`db.py`: async SQLModel +
psycopg), and `Field(max_length=200/1000)` in `models.py` declares the
columns as `VARCHAR(200)`/`VARCHAR(1000)`, so the database raises at
`session.flush()`; the tool's catch-all normalises the exception into this
mapping and no row is stored.  The message models the driver's error
text. -/
def varcharErrorValue (n : Nat) : Value :=
  .obj [("error", .s "internal_error"),
        ("message", .s ("value too long for type character varying(" ++ toString n ++ ")"))]

/-- `internal_error` mapping for a non-string `user_id` argument:
`UUID(x)` raises `AttributeError` on a non-string, which escapes the inner
`except ValueError` and is normalised by the tool's catch-all.  The message
models the Python error text. -/
def uuidTypeErrorValue : Value :=
  .obj [("error", .s "internal_error"),
        ("message", .s "UUID() received a non-string user_id")]

/-- `internal_error` mapping for a statement parameter whose runtime type
the database driver rejects (e.g. a non-integer `task_id` compared against
the integer id column, or a non-string title bound to a VARCHAR column);
the tool's catch-all normalises it.  The message models the
driver's error text. -/
def driverTypeErrorValue : Value :=
  .obj [("error", .s "internal_error"),
        ("message", .s "database driver rejected ill-typed parameter")]

/-- Is the optional description longer than its `VARCHAR(1000)` column
allows? -/
def descTooLong : Option String → Bool
  | some d => 1000 < d.length
  | none => false

/-- Is the supplied title longer than its `VARCHAR(200)` column allows? -/
def titleTooLong : Option String → Bool
  | some v => 200 < v.length
  | none => false

/-! ## The five MCP tools (`mcp/tools.py`) -/

/-- `AddTaskTool.run`.  No schema check happens at execution time: the
declared schema is not consulted by the dispatch path, and SQLModel table
models do not run pydantic validation (so an EMPTY title reaches storage —
`minLength` exists only in the schema data).  The `VARCHAR(200)` /
`VARCHAR(1000)` columns the same `Field(max_length=...)` declarations
produce on PostgreSQL do reject over-length values at `flush()`, which the
catch-all reports as `internal_error` with no row stored. -/
def AddTaskTool.run (user_id title : String) (description : Option String)
    (st : TaskStore) : Value × TaskStore :=
  match pyUuidCanon user_id with
  | none => (validationErrorValue user_id, st)
  | some u =>
    if 200 < title.length then (varcharErrorValue 200, st)
    else if descTooLong description then (varcharErrorValue 1000, st)
    else
      let t : Task :=
        { id := st.nextId, user_id := u, title := title, description := description,
          completed := false, created_at := st.clock, updated_at := st.clock }
      ( .obj [("task_id", .n st.nextId), ("status", .s "created"), ("title", .s title)],
        { tasks := st.tasks ++ [t], nextId := st.nextId + 1, clock := st.clock + 1 } )

/-- `ORDER BY created_at DESC` comparison: newest first. -/
def createdDesc (a b : Task) : Prop := b.created_at ≤ a.created_at

instance : DecidableRel createdDesc := fun a b => Nat.decLe _ _
instance : IsTotal Task createdDesc := ⟨fun a b => Nat.le_total b.created_at a.created_at⟩
instance : IsTrans Task createdDesc := ⟨fun _ _ _ h1 h2 => Nat.le_trans h2 h1⟩

/-- The WHERE clause of `list_tasks`: owner filter plus optional status
filter (any status other than `pending` / `completed` applies no extra
filter, as in the source's if/elif chain). -/
def taskMatches (u status : String) (t : Task) : Bool :=
  t.user_id == u &&
  (if status == "pending" then t.completed == false
   else if status == "completed" then t.completed == true
   else true)

/-- The row shape `list_tasks` returns per task. -/
def taskRow (t : Task) : Value :=
  .obj [("id", .n t.id), ("title", .s t.title), ("completed", .b t.completed)]

/-- `ListTasksTool.run`.  Note the error shape: a ONE-ELEMENT LIST holding
the error mapping (the other four tools return the mapping itself). -/
def ListTasksTool.run (user_id status : String) (st : TaskStore) : Value :=
  match pyUuidCanon user_id with
  | none => .arr [validationErrorValue user_id]
  | some u =>
    .arr ((List.insertionSort createdDesc (st.tasks.filter (taskMatches u status))).map taskRow)

/-- `select(Task).where(Task.id == task_id, Task.user_id == u)` followed by
`scalar_one_or_none()`. -/
def findTask (st : TaskStore) (task_id : Int) (u : String) : Option Task :=
  st.tasks.find? (fun t => t.id == task_id && t.user_id == u)

/-- `CompleteTaskTool.run`.  Sets only `completed`; `updated_at` is not
touched (no `onupdate` is configured on the model). -/
def CompleteTaskTool.run (user_id : String) (task_id : Int) (st : TaskStore) :
    Value × TaskStore :=
  match pyUuidCanon user_id with
  | none => (validationErrorValue user_id, st)
  | some u =>
    match findTask st task_id u with
    | none => (notFoundValue task_id, st)
    | some t =>
      ( .obj [("task_id", .n t.id), ("status", .s "completed"), ("title", .s t.title)],
        { st with tasks := st.tasks.map (fun x => if x.id == t.id then { x with completed := true } else x) } )

/-- `DeleteTaskTool.run`: hard delete; returns the pre-deletion title and
echoes the `task_id` argument. -/
def DeleteTaskTool.run (user_id : String) (task_id : Int) (st : TaskStore) :
    Value × TaskStore :=
  match pyUuidCanon user_id with
  | none => (validationErrorValue user_id, st)
  | some u =>
    match findTask st task_id u with
    | none => (notFoundValue task_id, st)
    | some t =>
      ( .obj [("task_id", .n task_id), ("status", .s "deleted"), ("title", .s t.title)],
        { st with tasks := st.tasks.filter (fun x => !(x.id == t.id)) } )

/-- The field updates `update_task` applies (only supplied fields). -/
def applyTaskUpdate (title description : Option String) (x : Task) : Task :=
  let x1 := match title with | some v => { x with title := v } | none => x
  match description with | some v => { x1 with description := some v } | none => x1

/-- `UpdateTaskTool.run`.  Mutates only the supplied fields and flushes;
`updated_at` is NOT refreshed here — the `Task` model declares no
`onupdate` for that column (only the REST route in `routes/tasks.py` sets
it manually, contradicting the model docstring's "auto-updated").  As in
`AddTaskTool.run`, a supplied value exceeding its PostgreSQL `VARCHAR`
column is rejected at `flush()` (only assigned columns are written), which
the catch-all reports as `internal_error` with nothing persisted. -/
def UpdateTaskTool.run (user_id : String) (task_id : Int)
    (title description : Option String) (st : TaskStore) : Value × TaskStore :=
  match pyUuidCanon user_id with
  | none => (validationErrorValue user_id, st)
  | some u =>
    if title.isNone && description.isNone then
      ( .obj [("error", .s "validation_error"),
              ("message", .s "At least one of title or description must be provided")], st )
    else
      match findTask st task_id u with
      | none => (notFoundValue task_id, st)
      | some t =>
        if titleTooLong title then
          (varcharErrorValue 200, st)
        else if descTooLong description then
          (varcharErrorValue 1000, st)
        else
          ( .obj [("task_id", .n t.id), ("status", .s "updated"),
                  ("title", .s (applyTaskUpdate title description t).title)],
            { st with tasks := st.tasks.map (fun x => if x.id == t.id then applyTaskUpdate title description x else x) } )

/-! ## Dispatch (`mcp/server.py` `execute_mcp_tool`) -/

/-- A tool call whose keyword arguments have been matched BY NAME to the
selected tool's parameters (Python `tool.run(session, **kwargs)`): the
values are passed through untyped, exactly as keyword binding does. -/
inductive BoundCall where
  | add (user_id title : Value) (description : Option Value)
  | list (user_id : Value) (status : Option Value)
  | complete (user_id task_id : Value)
  | del (user_id task_id : Value)
  | upd (user_id task_id : Value) (title description : Option Value)

def keysIn (args : List (String × Value)) (allowed : List String) : Bool :=
  args.all (fun p => allowed.contains p.1)

def knownTool (name : String) : Bool :=
  ["add_task", "list_tasks", "complete_task", "delete_task", "update_task"].contains name

/-- Bind a named tool call's keyword arguments to the tool's parameters
(Python `tool.run(session, **kwargs)`).  Binding fails (`none`, modelling
the raised `TypeError`) ONLY on a keyword-name mismatch: a required
keyword missing or an unexpected keyword present.  Argument VALUES are
passed through whatever their runtime type; an ill-typed value fails later
INSIDE the tool body, whose catch-all turns the failure into an error
mapping instead of raising (see `runBound`). -/
def bindCall (name : String) (args : List (String × Value)) : Option BoundCall :=
  if name == "add_task" then
    if keysIn args ["user_id", "title", "description"] then
      match getField args "user_id", getField args "title" with
      | some u, some t => some (.add u t (getField args "description"))
      | _, _ => none
    else none
  else if name == "list_tasks" then
    if keysIn args ["user_id", "status"] then
      match getField args "user_id" with
      | some u => some (.list u (getField args "status"))
      | none => none
    else none
  else if name == "complete_task" then
    if keysIn args ["user_id", "task_id"] then
      match getField args "user_id", getField args "task_id" with
      | some u, some k => some (.complete u k)
      | _, _ => none
    else none
  else if name == "delete_task" then
    if keysIn args ["user_id", "task_id"] then
      match getField args "user_id", getField args "task_id" with
      | some u, some k => some (.del u k)
      | _, _ => none
    else none
  else if name == "update_task" then
    if keysIn args ["user_id", "task_id", "title", "description"] then
      match getField args "user_id", getField args "task_id" with
      | some u, some k =>
        some (.upd u k (getField args "title") (getField args "description"))
      | _, _ => none
    else none
  else none

/-- An absent optional argument and an explicit JSON null both reach the
tool as Python `None`. -/
def pyNone : Option Value → Bool
  | none => true
  | some .null => true
  | _ => false

/-- Coerce an optional argument to the `Option String` the typed tool body
consumes: `some none` for Python `None`, `some (some x)` for a string, and
`none` for a value whose type the database driver will reject at the
flush. -/
def optVal : Option Value → Option (Option String)
  | none => some none
  | some .null => some none
  | some (.s x) => some (some x)
  | some _ => none

/-- The status value as the tool's if/elif chain sees it: only a string
can equal `"pending"`/`"completed"`; `None`, an absent key (Python default
`"all"`) or a value of any other type compares unequal to both and
filters like `"all"`. -/
def statusStr : Option Value → String
  | some (.s x) => x
  | _ => "all"

/-- Run a keyword-bound call, consuming the untyped argument values in the
order the tool body does: `UUID(user_id)` first (a non-string raises
`AttributeError`, normalised by the catch-all to `internal_error`; an
ill-formed string gives `validation_error`), then the statement parameters
(`task_id` at the SELECT, title/description at the flush), whose ill-typed
values the PostgreSQL driver rejects — again normalised to
`internal_error` by the catch-all, never raised out of the tool.  A fully
typed call runs the tool body proper. -/
def runBound : BoundCall → TaskStore → Value × TaskStore
  | .add u t d, st =>
    match u with
    | .s us =>
      match pyUuidCanon us with
      | none => (validationErrorValue us, st)
      | some _ =>
        match t, optVal d with
        | .s ts, some dd => AddTaskTool.run us ts dd st
        | _, _ => (driverTypeErrorValue, st)
    | _ => (uuidTypeErrorValue, st)
  | .list u s, st =>
    match u with
    | .s us => (ListTasksTool.run us (statusStr s) st, st)
    | _ => (.arr [uuidTypeErrorValue], st)
  | .complete u k, st =>
    match u with
    | .s us =>
      match pyUuidCanon us with
      | none => (validationErrorValue us, st)
      | some _ =>
        match k with
        | .n kk => CompleteTaskTool.run us kk st
        | _ => (driverTypeErrorValue, st)
    | _ => (uuidTypeErrorValue, st)
  | .del u k, st =>
    match u with
    | .s us =>
      match pyUuidCanon us with
      | none => (validationErrorValue us, st)
      | some _ =>
        match k with
        | .n kk => DeleteTaskTool.run us kk st
        | _ => (driverTypeErrorValue, st)
    | _ => (uuidTypeErrorValue, st)
  | .upd u k t d, st =>
    match u with
    | .s us =>
      match pyUuidCanon us with
      | none => (validationErrorValue us, st)
      | some uu =>
        if pyNone t && pyNone d then
          ( .obj [("error", .s "validation_error"),
                  ("message", .s "At least one of title or description must be provided")], st )
        else
          match k with
          | .n kk =>
            match findTask st kk uu with
            | none => (notFoundValue kk, st)
            | some _ =>
              match optVal t, optVal d with
              | some tt, some dd => UpdateTaskTool.run us kk tt dd st
              | _, _ => (driverTypeErrorValue, st)
          | _ => (driverTypeErrorValue, st)
    | _ => (uuidTypeErrorValue, st)

/-- `execute_mcp_tool` (`mcp/server.py`): dispatch by name.  An unknown
name raises `ValueError` and a keyword-NAME mismatch (missing required or
unexpected keyword) raises `TypeError`; both propagate as exceptions
(`.error`) out of the dispatch.  Every call that binds returns a result
value: all tool bodies are wrapped in a catch-all that normalises failures
— including ill-typed argument values — into `error` mappings. -/
def execute_mcp_tool (tool_name : String) (args : List (String × Value))
    (st : TaskStore) : Except String (Value × TaskStore) :=
  if knownTool tool_name then
    match bindCall tool_name args with
    | some c => .ok (runBound c st)
    | none => .error ("TypeError: bad arguments for tool " ++ tool_name)
  else
    .error ("Unknown tool: " ++ tool_name)

/-! ## Agent orchestration loop (`ai/runner.py`) -/

/-- Python `str(...)` of a tool result (dict / list repr), used as the
`content` of the tool messages fed back to the engine.  Behaviour-irrelevant
to every claim. -/
def pyStrV : Value → String
  | .s x => "\x27" ++ x ++ "\x27"
  | .n x => toString x
  | .b true => "True"
  | .b false => "False"
  | .null => "None"
  | .arr xs => "[" ++ String.intercalate ", " (xs.attach.map (fun p => pyStrV p.1)) ++ "]"
  | .obj kvs =>
      "\x7b" ++
        String.intercalate ", "
          (kvs.attach.map (fun p => "\x27" ++ p.1.1 ++ "\x27: " ++ pyStrV p.1.2)) ++
      "\x7d"
decreasing_by
  · have h := List.sizeOf_lt_of_mem p.2
    simp only [Value.arr.sizeOf_spec]
    omega
  · obtain ⟨⟨k, v⟩, hp⟩ := p
    have h := List.sizeOf_lt_of_mem hp
    simp only [Prod.mk.sizeOf_spec] at h
    simp only [Value.obj.sizeOf_spec]
    omega

/-- One tool invocation requested by the engine (an OpenAI tool call), with
the JSON argument string already decoded into a mapping (`json.loads`). -/
structure ToolCallReq where
  id : String
  name : String
  arguments : List (String × Value)

/-- A message in the orchestration message array. -/
inductive Msg where
  | system (content : String)
  | user (content : String)
  | assistant (content : String) (tool_calls : List ToolCallReq)
  | tool (tool_call_id : String) (name : String) (content : String)

/-- What one reasoning call returns: optional text plus requested tool
calls (an empty list models `tool_calls = None`). -/
structure EngineResponse where
  content : Option String
  tool_calls : List ToolCallReq

/-- The reasoning engine as an opaque capability: a response for every
message array it is shown. -/
def Engine : Type := List Msg → EngineResponse

/-- One entry of the tool-call audit trail (`tool_calls_made`). -/
structure AuditEntry where
  tool : String
  arguments : List (String × Value)
  result : Value

/-- The dict `AgentRunner.run` returns. -/
structure AgentResult where
  assistant_message : Option String
  tool_calls : List AuditEntry
  iterations : Nat
  error : Option String

/-- Ghost observables of a run (not part of the returned dict): how many
reasoning calls were made, and which tool dispatches occurred with which
argument mappings (in dispatch order). -/
structure Ghost where
  engineCalls : Nat
  dispatched : List (String × List (String × Value))

/-- The fixed apologetic reply returned when the iteration budget runs
out. -/
def apologyMessage : String :=
  "I apologize, but I\x27m having trouble completing that request. Could you try rephrasing?"

/-- `get_system_prompt()` (`ai/prompts.py`): a fixed instruction string.
Only its presence at the head of the message array matters to any claim;
the full prompt text is abridged here. -/
def get_system_prompt : String :=
  "You are a helpful task management assistant called Todo Assistant."

/-- Execute the tool calls requested in one reasoning step, in request
order (`ai/runner.py` lines 99-126): inject the authenticated owner into
the argument mapping (`tool_args["user_id"] = user_id`), dispatch via
`execute_mcp_tool`, record the audit entry and append the tool-result
message.  A raised dispatch exception aborts the whole run.  The second
component is the ghost dispatch log. -/
def execCalls (user : String) :
    List ToolCallReq → List Msg → List AuditEntry → TaskStore →
    Except String (List Msg × List AuditEntry × TaskStore) ×
      List (String × List (String × Value))
  | [], msgs, audit, st => (.ok (msgs, audit, st), [])
  | req :: rest, msgs, audit, st =>
    let args := setKey req.arguments "user_id" (.s user)
    match execute_mcp_tool req.name args st with
    | .error e => (.error e, [(req.name, args)])
    | .ok (v, st') =>
      let out := execCalls user rest
        (msgs ++ [Msg.tool req.id req.name (pyStrV v)])
        (audit ++ [{ tool := req.name, arguments := args, result := v }]) st'
      (out.1, (req.name, args) :: out.2)

/-- The orchestration loop of `AgentRunner.run`, with `fuel` the remaining
iteration budget (`max_iterations - iterations`).  Returns the run outcome
(or the exception it propagates) paired with the ghost observables. -/
def runLoop (engine : Engine) (user : String) :
    Nat → List Msg → List AuditEntry → Nat → TaskStore →
    Except String (AgentResult × TaskStore) × Ghost
  | 0, _msgs, audit, iters, st =>
    (.ok ({ assistant_message := some apologyMessage, tool_calls := audit,
            iterations := iters, error := some "max_iterations_reached" }, st),
     { engineCalls := 0, dispatched := [] })
  | fuel + 1, msgs, audit, iters, st =>
    let resp := engine msgs
    match resp.tool_calls with
    | [] =>
      (.ok ({ assistant_message := resp.content, tool_calls := audit,
              iterations := iters + 1, error := none }, st),
       { engineCalls := 1, dispatched := [] })
    | _ :: _ =>
      let msgs1 := msgs ++ [Msg.assistant (resp.content.getD "") resp.tool_calls]
      match execCalls user resp.tool_calls msgs1 audit st with
      | (.error e, ds) => (.error e, { engineCalls := 1, dispatched := ds })
      | (.ok (msgs2, audit2, st2), ds) =>
        let r := runLoop engine user fuel msgs2 audit2 (iters + 1) st2
        (r.1, { engineCalls := r.2.engineCalls + 1, dispatched := ds ++ r.2.dispatched })

/-- `AgentRunner.run` (`ai/runner.py`): prepend the system prompt to the
supplied history and drive the loop with the given iteration budget. -/
def AgentRunner.run (engine : Engine) (user_id : String) (messages : List Msg)
    (max_iterations : Nat) (st : TaskStore) :
    Except String (AgentResult × TaskStore) × Ghost :=
  runLoop engine user_id max_iterations
    ([Msg.system get_system_prompt] ++ messages) [] 0 st

/-- The default iteration budget (`max_iterations: int = 5`, and the chat
route passes `max_iterations=5` explicitly). -/
def defaultMaxIterations : Nat := 5

/-! ## Conversation store (`models.py`, `services/conversation_service.py`) -/

/-- A conversation row. -/
structure Conversation where
  id : Int
  user_id : String
  created_at : Nat
  updated_at : Nat
  deriving DecidableEq, Repr

/-- A message row. -/
structure Message where
  id : Int
  conversation_id : Int
  user_id : String
  role : String
  content : String
  created_at : Nat
  deriving DecidableEq, Repr

/-- Conversations and messages tables plus auto-increment counters and the
logical UTC clock. -/
structure ConvStore where
  convs : List Conversation
  msgs : List Message
  nextConvId : Int
  nextMsgId : Int
  clock : Nat
  deriving DecidableEq, Repr

def emptyConvStore : ConvStore :=
  { convs := [], msgs := [], nextConvId := 1, nextMsgId := 1, clock := 0 }

/-- The `ValueError` message raised for a missing / not-owned
conversation. -/
def convNotFoundMsg (conversation_id : Int) : String :=
  "Conversation " ++ toString conversation_id ++ " not found or doesn\x27t belong to user"

/-- Owner-scoped conversation lookup (`select ... where id == cid and
user_id == uid`, `scalar_one_or_none`). -/
def findConv (st : ConvStore) (conversation_id : Int) (user_id : String) :
    Option Conversation :=
  st.convs.find? (fun c => c.id == conversation_id && c.user_id == user_id)

/-- `get_or_create_conversation`: with an id, return that conversation only
if it exists and belongs to the owner (else raise `ValueError`); with no
id, create a fresh empty conversation (the two timestamp columns are two
successive `utcnow` default-factory observations). -/
def get_or_create_conversation (st : ConvStore) (user_id : String)
    (conversation_id : Option Int) : Except String (Conversation × ConvStore) :=
  match conversation_id with
  | some cid =>
    match findConv st cid user_id with
    | none => .error (convNotFoundMsg cid)
    | some c => .ok (c, st)
  | none =>
    let c : Conversation :=
      { id := st.nextConvId, user_id := user_id,
        created_at := st.clock, updated_at := st.clock + 1 }
    .ok (c, { st with convs := st.convs ++ [c], nextConvId := st.nextConvId + 1,
                      clock := st.clock + 2 })

/-- `ORDER BY created_at DESC` on messages: newest first. -/
def msgCreatedDesc (a b : Message) : Prop := b.created_at ≤ a.created_at

instance : DecidableRel msgCreatedDesc := fun _ _ => Nat.decLe _ _
instance : IsTotal Message msgCreatedDesc :=
  ⟨fun a b => Nat.le_total b.created_at a.created_at⟩
instance : IsTrans Message msgCreatedDesc :=
  ⟨fun _ _ _ h1 h2 => Nat.le_trans h2 h1⟩

/-- `get_conversation_messages`: verify ownership, select the newest
`limit` messages of the conversation (`ORDER BY created_at DESC LIMIT n`),
reverse them into chronological order and project to role/content pairs. -/
def get_conversation_messages (st : ConvStore) (conversation_id : Int)
    (user_id : String) (limit : Nat) : Except String (List (String × String)) :=
  match findConv st conversation_id user_id with
  | none => .error (convNotFoundMsg conversation_id)
  | some _ =>
    let ms := st.msgs.filter (fun m => m.conversation_id == conversation_id)
    let newestFirst := (List.insertionSort msgCreatedDesc ms).take limit
    .ok (newestFirst.reverse.map (fun m => (m.role, m.content)))

/-- `store_message`: validate the role, verify conversation ownership,
insert the message (timestamp = one `utcnow` observation) and bump the
parent conversation's `updated_at` via an explicit UPDATE (a later `utcnow`
observation). -/
def store_message (st : ConvStore) (conversation_id : Int)
    (user_id role content : String) : Except String (Message × ConvStore) :=
  if !(role == "user" || role == "assistant") then
    .error ("Invalid role: " ++ role ++ ". Must be \x27user\x27 or \x27assistant\x27")
  else
    match findConv st conversation_id user_id with
    | none => .error (convNotFoundMsg conversation_id)
    | some _ =>
      let m : Message :=
        { id := st.nextMsgId, conversation_id := conversation_id,
          user_id := user_id, role := role, content := content,
          created_at := st.clock }
      .ok (m,
        { st with
          msgs := st.msgs ++ [m],
          nextMsgId := st.nextMsgId + 1,
          convs := st.convs.map (fun c =>
            if c.id == conversation_id then { c with updated_at := st.clock + 1 } else c),
          clock := st.clock + 2 })

/-- A sequence of `store_message` calls with the same conversation and
owner, aborting at the first raised error. -/
def appendAll (st : ConvStore) (conversation_id : Int) (user_id : String) :
    List (String × String) → Except String ConvStore
  | [] => .ok st
  | (role, content) :: rest =>
    match store_message st conversation_id user_id role content with
    | .error e => .error e
    | .ok (_, st') => appendAll st' conversation_id user_id rest

/-- `ORDER BY updated_at DESC` on conversations. -/
def updatedDesc (a b : Conversation) : Prop := b.updated_at ≤ a.updated_at

instance : DecidableRel updatedDesc := fun _ _ => Nat.decLe _ _

/-- `list_user_conversations`: the owner's conversations, most recently
active first, limited. -/
def list_user_conversations (st : ConvStore) (user_id : String) (limit : Nat) :
    List Conversation :=
  (List.insertionSort updatedDesc (st.convs.filter (fun c => c.user_id == user_id))).take limit

/-- `delete_conversation`: owner-scoped lookup; cascade-delete the
conversation's messages; `false` (not an error) when nothing matched. -/
def delete_conversation (st : ConvStore) (conversation_id : Int)
    (user_id : String) : Bool × ConvStore :=
  match findConv st conversation_id user_id with
  | none => (false, st)
  | some c =>
    (true,
     { st with convs := st.convs.filter (fun x => !(x.id == c.id)),
               msgs := st.msgs.filter (fun m => !(m.conversation_id == c.id)) })

/-! ## Mock fallback runner (`ai/mock_runner.py`)

The regex-based argument extraction (`re.search` patterns) is modelled as
an oracle parameter: the spec treats the exact regex behaviour as a
best-effort heuristic, and every modelled property holds for every
extraction outcome.  Keyword intent classification is modelled faithfully
as substring tests on the lower-cased message.  Decorative emoji in the
reply texts are omitted. -/

/-- Is `pat` a contiguous sublist of the scanned list? -/
def subListOf (pat : List Char) : List Char → Bool
  | [] => pat.isEmpty
  | c :: rest => pat.isPrefixOf (c :: rest) || subListOf pat rest

/-- Case-sensitive substring test, Python `pat in s` (for non-empty
`pat`). -/
def strContains (s pat : String) : Bool := subListOf pat.toList s.toList

/-- The outcomes of the mock runner's regular-expression argument
extraction: `addDescription` for the add-task pattern chain,
`targetTaskId` for the task-number pattern, `updateText` for the
update-text pattern. -/
structure RegexOracle where
  addDescription : Option String
  targetTaskId : Option Nat
  updateText : Option String

/-- Field access on a dict-shaped result value. -/
def vGet (v : Value) (k : String) : Option Value :=
  match v with
  | .obj kvs => getField kvs k
  | _ => none

/-- Python truthiness of `d.get(k)`. -/
def truthyField (v : Value) (k : String) : Bool :=
  match vGet v k with
  | some (.n i) => i != 0
  | some (.s x) => x != ""
  | some (.b b) => b
  | some .null => false
  | some (.arr xs) => !xs.isEmpty
  | some (.obj kvs) => !kvs.isEmpty
  | none => false

/-- String field with a default (`d.get(k, dflt)` as used on message
fields). -/
def strFieldOr (v : Value) (k : String) (dflt : String) : String :=
  match vGet v k with
  | some (.s x) => x
  | _ => dflt

def mockGreeting : String :=
  "Hello! I\x27m your AI task assistant. I can help you manage your tasks. Try asking me to add a task, list your tasks, or mark one as complete!"

def mockAddClarify : String :=
  "I\x27d be happy to add a task! Could you please tell me what you\x27d like to add? For example, \x27Add a task to buy groceries\x27."

/-- `_handle_add_task`: with the extracted description (at least 3
characters), call `add_task` exactly once with the extracted text as the
title; phrase the reply from the result (`task_id` truthiness). -/
def mockHandleAdd (oracle : RegexOracle) (user : String) (st : TaskStore) :
    String × List AuditEntry × TaskStore :=
  match oracle.addDescription with
  | none => (mockAddClarify, [], st)
  | some d =>
    if d.length < 3 then (mockAddClarify, [], st)
    else
      match execute_mcp_tool "add_task"
          [("user_id", .s user), ("title", .s d), ("description", .null)] st with
      | .error e =>
        ("I encountered an error while adding the task: " ++ e ++ ". Please try again.", [], st)
      | .ok (v, st') =>
        if truthyField v "task_id" then
          ("I\x27ve added the task: \"" ++ d ++ "\"\n\nTask ID: " ++
             strFieldOr v "task_id" (match vGet v "task_id" with
               | some (.n i) => toString i | _ => "") ++
             "\n\nWould you like to add another task or see your task list?",
           [{ tool := "add_task", arguments := [("title", .s d)], result := v }], st')
        else
          ("I tried to add the task, but encountered an issue: " ++
             strFieldOr v "error" "Unknown error" ++ ". Please try again.", [], st')

/-- One displayed row of the mock task listing. -/
def rowLine (t : Value) : String :=
  "  " ++ (match vGet t "id" with | some (.n i) => toString i | _ => "") ++ ". " ++
    strFieldOr t "title" "" ++ "\n"

/-- The task-list reply body of `_handle_list_tasks` (pending then up to
three completed entries). -/
def mockFormatTaskList (tasks : List Value) : String :=
  let pending := tasks.filter (fun t => !(truthyField t "completed"))
  let completed := tasks.filter (fun t => truthyField t "completed")
  let r0 := "Here are your tasks (" ++ toString tasks.length ++ " total):\n\n"
  let r1 := if !pending.isEmpty then r0 ++ "**Pending:**\n" ++ String.join (pending.map rowLine)
            else r0
  let r2 := if !completed.isEmpty then
      r1 ++ "\n**Completed:** (" ++ toString completed.length ++ ")\n" ++
        String.join ((completed.take 3).map (fun t => "  " ++ rowLine t)) ++
        (if completed.length > 3 then
          "  ... and " ++ toString (completed.length - 3) ++ " more\n" else "")
    else r1
  r2 ++ "\nNeed help with any of these tasks?"

/-- `_handle_list_tasks`: call `list_tasks` once and format the reply.
(The non-list branch of the source dereferences an undefined name and is
unreachable, since `list_tasks` always returns a list.) -/
def mockHandleList (user : String) (st : TaskStore) :
    String × List AuditEntry × TaskStore :=
  match execute_mcp_tool "list_tasks" [("user_id", .s user), ("status", .s "all")] st with
  | .error e => ("I encountered an error while fetching your tasks: " ++ e, [], st)
  | .ok (v, st') =>
    match v with
    | .arr tasks =>
      if tasks.isEmpty then
        ("You don\x27t have any tasks yet. Would you like to add one?",
         [{ tool := "list_tasks", arguments := [], result := v }], st')
      else
        (mockFormatTaskList tasks,
         [{ tool := "list_tasks", arguments := [], result := v }], st')
    | _ => ("I couldn\x27t retrieve your tasks: Unknown error", [], st')

def mockCompleteClarify : String :=
  "Which task would you like to mark as complete? Please provide the task number (e.g., \x27Complete task 1\x27)."

/-- `_handle_complete_task`: with the extracted task number (Python
truthiness: `0` also triggers the clarification), call `complete_task`
once and phrase the reply, distinguishing a `not_found` result. -/
def mockHandleComplete (oracle : RegexOracle) (user : String) (st : TaskStore) :
    String × List AuditEntry × TaskStore :=
  match oracle.targetTaskId with
  | none => (mockCompleteClarify, [], st)
  | some tid =>
    if tid == 0 then (mockCompleteClarify, [], st)
    else
      match execute_mcp_tool "complete_task"
          [("user_id", .s user), ("task_id", .n tid)] st with
      | .error e => ("I encountered an error: " ++ e, [], st)
      | .ok (v, st') =>
        if (vGet v "error").isSome then
          let m := strFieldOr v "message" (strFieldOr v "error" "Unknown error")
          if strContains (lowerStr m) "not found" then
            ("I couldn\x27t find task " ++ toString tid ++
               ". Would you like to see your task list?", [], st')
          else ("I couldn\x27t complete that task: " ++ m, [], st')
        else
          ("Great job! I\x27ve marked task " ++ toString tid ++
             " as complete.\n\nWould you like to see your remaining tasks?",
           [{ tool := "complete_task", arguments := [("task_id", .n tid)], result := v }], st')

def mockDeleteClarify : String :=
  "Which task would you like to delete? Please provide the task number (e.g., \x27Delete task 1\x27)."

/-- `_handle_delete_task`: same shape as the complete handler, over
`delete_task`. -/
def mockHandleDelete (oracle : RegexOracle) (user : String) (st : TaskStore) :
    String × List AuditEntry × TaskStore :=
  match oracle.targetTaskId with
  | none => (mockDeleteClarify, [], st)
  | some tid =>
    if tid == 0 then (mockDeleteClarify, [], st)
    else
      match execute_mcp_tool "delete_task"
          [("user_id", .s user), ("task_id", .n tid)] st with
      | .error e => ("I encountered an error: " ++ e, [], st)
      | .ok (v, st') =>
        if (vGet v "error").isSome then
          let m := strFieldOr v "message" (strFieldOr v "error" "Unknown error")
          if strContains (lowerStr m) "not found" then
            ("I couldn\x27t find task " ++ toString tid ++
               ". Would you like to see your task list?", [], st')
          else ("I couldn\x27t delete that task: " ++ m, [], st')
        else
          ("I\x27ve deleted task " ++ toString tid ++
             ".\n\nIs there anything else I can help you with?",
           [{ tool := "delete_task", arguments := [("task_id", .n tid)], result := v }], st')

/-- `_handle_update_task`: extracted task number plus extracted new text
(at least 3 characters); calls `update_task` once with the text as the new
TITLE (the audit entry nonetheless records it under `description`, as in
the source). -/
def mockHandleUpdate (oracle : RegexOracle) (user : String) (st : TaskStore) :
    String × List AuditEntry × TaskStore :=
  match oracle.targetTaskId with
  | none =>
    ("Which task would you like to update? Please provide the task number and new description (e.g., \x27Update task 1 to buy milk and bread\x27).", [], st)
  | some tid =>
    if tid == 0 then
      ("Which task would you like to update? Please provide the task number and new description (e.g., \x27Update task 1 to buy milk and bread\x27).", [], st)
    else
      match oracle.updateText with
      | none => ("What would you like to change task " ++ toString tid ++ " to?", [], st)
      | some text =>
        if text.length < 3 then
          ("What would you like to change task " ++ toString tid ++ " to?", [], st)
        else
          match execute_mcp_tool "update_task"
              [("user_id", .s user), ("task_id", .n tid),
               ("title", .s text), ("description", .null)] st with
          | .error e => ("I encountered an error: " ++ e, [], st)
          | .ok (v, st') =>
            if (vGet v "error").isSome then
              let m := strFieldOr v "message" (strFieldOr v "error" "Unknown error")
              if strContains (lowerStr m) "not found" then
                ("I couldn\x27t find task " ++ toString tid ++
                   ". Would you like to see your task list?", [], st')
              else ("I couldn\x27t update that task: " ++ m, [], st')
            else
              ("I\x27ve updated task " ++ toString tid ++ " to: \"" ++ text ++
                 "\"\n\nAnything else you\x27d like to change?",
               [{ tool := "update_task",
                  arguments := [("task_id", .n tid), ("description", .s text)],
                  result := v }], st')

/-- `_handle_help`: a fixed command reference (full text abridged). -/
def mockHelpText : String :=
  "**AI Task Assistant - Available Commands**\n\nI can help you manage your tasks! Just ask naturally, and I\x27ll understand!"

/-- The three rotating default replies of `_handle_default` (texts
abridged to their openings). -/
def mockDefaultResponses : List String :=
  ["I\x27m here to help you manage your tasks! You can ask me to add, list, complete, delete, or update tasks. What would you like to do?",
   "I\x27m not quite sure what you\x27d like me to do. I can help with adding tasks, viewing your task list, marking tasks as complete, or deleting tasks. What do you need?",
   "I\x27m your task management assistant! Try asking me to \x27list my tasks\x27 or \x27add a task to [something]\x27. How can I help?"]

/-- `_handle_default`: rotate through the canned replies by message
length. -/
def mockHandleDefault (message : String) : String :=
  mockDefaultResponses.getD (message.length % 3) ""

/-- `_process_intent`: classify the message into one of six buckets by
keyword presence, in the source's fixed priority order, falling through to
the default reply. -/
def mockIntentReply (oracle : RegexOracle) (user original : String) (st : TaskStore) :
    String × List AuditEntry × TaskStore :=
  let lower := lowerStr original
  if ["add", "create", "new task", "make a task", "todo"].any (fun k => strContains lower k) then
    mockHandleAdd oracle user st
  else if ["list", "show", "what", "tasks", "my tasks", "all tasks", "view"].any (fun k => strContains lower k) then
    mockHandleList user st
  else if ["complete", "finish", "done", "finished", "mark as complete"].any (fun k => strContains lower k) then
    mockHandleComplete oracle user st
  else if ["delete", "remove", "cancel"].any (fun k => strContains lower k) then
    mockHandleDelete oracle user st
  else if ["update", "change", "modify", "edit", "rename"].any (fun k => strContains lower k) then
    mockHandleUpdate oracle user st
  else if ["help", "what can you do", "commands", "how"].any (fun k => strContains lower k) then
    (mockHelpText, [], st)
  else
    (mockHandleDefault original, [], st)

/-- `MockAgentRunner.run`: find the latest user message, classify its
intent and produce a reply plus at most one audit-recorded tool call.
(The `conversation_count` instance counter has no observable effect and is
omitted; `max_iterations` is accepted and unused, as in the source.) -/
def MockAgentRunner.run (oracle : RegexOracle) (user : String)
    (messages : List (String × String)) (st : TaskStore) :
    String × List AuditEntry × TaskStore :=
  match (messages.reverse.find? (fun m => m.1 == "user")).map (fun m => m.2) with
  | none => (mockGreeting, [], st)
  | some userMessage =>
    if userMessage == "" then (mockGreeting, [], st)
    else mockIntentReply oracle user userMessage st

/-! ## Chat endpoint (`routes/chat.py`) -/

/-- The outcome of the `try` block around `AgentRunner()` /
`agent_runner.run(...)`: a returned result dict (with whatever task-store
effects the executed tools had), or a raised exception's text (with the
store as the failure left it). -/
inductive EngineAttempt where
  | ok (assistant_message : Option String) (tool_calls : List AuditEntry) (st : TaskStore)
  | fail (e : String) (st : TaskStore)

/-- The capacity-class test on the failure text:
`"quota" in e.lower() or "rate" in e.lower() or "429" in e`. -/
def isQuotaError (e : String) : Bool :=
  strContains (lowerStr e) "quota" || strContains (lowerStr e) "rate" || strContains e "429"

/-- The note appended to a fallback reply. -/
def mockNote : String := "\n\n_Note: Using mock AI responses (OpenAI quota exceeded)_"

def defaultErrText : String := "I apologize, but I encountered an error."

/-- Python `a or b` over an optional string (first truthy wins). -/
def orTruthy (a : Option String) (b : String) : String :=
  match a with
  | some s => if s == "" then b else s
  | none => b

/-- `agent_result.get("message") or agent_result.get("assistant_message",
"I apologize, but I encountered an error.")`. -/
def pyReplyText (message assistant_message : Option String) : String :=
  orTruthy message (orTruthy assistant_message defaultErrText)

structure ChatResponse where
  conversation_id : Int
  message : String
  tool_calls : List AuditEntry

/-- The chat endpoint body (`routes/chat.py`, `chat`): conversation
resolution, history load, agent attempt with quota-triggered fallback to
the mock runner, message persistence and response assembly.  `attempt`
stands for the opaque OpenAI-backed run; a final `.error` models an
exception propagating out of the turn (the route maps it to an HTTP error
response after rolling back). -/
def chat (cstore : ConvStore) (user : String)
    (reqMessage : String) (reqConvId : Option Int) (attempt : EngineAttempt)
    (oracle : RegexOracle) : Except String (ChatResponse × ConvStore × TaskStore) := do
  let (conv, cs1) ← get_or_create_conversation cstore user reqConvId
  let history ← get_conversation_messages cs1 conv.id user 50
  let messages := history ++ [("user", reqMessage)]
  let (replyMessage, toolCalls, ts1) ←
    (match attempt with
     | .ok am calls ts' => Except.ok (pyReplyText none am, calls, ts')
     | .fail e ts' =>
       if isQuotaError e then
         let r := MockAgentRunner.run oracle user messages ts'
         Except.ok (pyReplyText (some (r.1 ++ mockNote)) none, r.2.1, r.2.2)
       else
         Except.error e)
  let r1 ← store_message cs1 conv.id user "user" reqMessage
  let r2 ← store_message r1.2 conv.id user "assistant" replyMessage
  Except.ok ({ conversation_id := conv.id, message := replyMessage, tool_calls := toolCalls },
             r2.2, ts1)

/-! ## Helper lemmas -/

theorem getField_map_setHit (l : List (String × Value)) (k : String) (v : Value)
    (h : l.any (fun p => p.1 == k) = true) :
    getField (l.map (fun p => if p.1 == k then (k, v) else p)) k = some v := by
  induction l with
  | nil => simp at h
  | cons p l ih =>
    by_cases hp : (p.1 == k) = true
    · have hfp : (fun q : String × Value => if q.1 == k then (k, v) else q) p = (k, v) := by
        simp [hp]
      simp only [List.map_cons, hfp]
      unfold getField
      rw [List.find?_cons_of_pos _ (by simp)]
      rfl
    · have hp' : (p.1 == k) = false := by
        cases hb : (p.1 == k) with
        | true => exact absurd hb hp
        | false => rfl
      have hfp : (fun q : String × Value => if q.1 == k then (k, v) else q) p = p := by
        simp [hp']
      simp only [List.any_cons, hp', Bool.false_or] at h
      have := ih h
      simp only [List.map_cons, hfp]
      unfold getField at this ⊢
      rw [List.find?_cons_of_neg _ (by simp [hp'])]
      exact this

theorem getField_append_new (l : List (String × Value)) (k : String) (v : Value)
    (h : l.any (fun p => p.1 == k) = false) :
    getField (l ++ [(k, v)]) k = some v := by
  induction l with
  | nil =>
    unfold getField
    rw [List.nil_append, List.find?_cons_of_pos _ (by simp)]
    rfl
  | cons p l ih =>
    simp only [List.any_cons, Bool.or_eq_false_iff] at h
    have := ih h.2
    unfold getField at this ⊢
    rw [List.cons_append, List.find?_cons_of_neg _ (by simp [h.1])]
    exact this

/-- The owner injection `tool_args["user_id"] = user_id` always wins: after
`setKey`, looking the key up yields the injected value, whatever the engine
supplied. -/
theorem getField_setKey (l : List (String × Value)) (k : String) (v : Value) :
    getField (setKey l k v) k = some v := by
  unfold setKey
  cases h : l.any (fun p => p.1 == k) with
  | true => simpa [h] using getField_map_setHit l k v h
  | false => simpa [h] using getField_append_new l k v h

/-- Owner-scoped `find?` misses when no task with the id belongs to the
owner. -/
theorem findTask_none (st : TaskStore) (tid : Int) (a : String)
    (h : ∀ t ∈ st.tasks, t.id = tid → t.user_id ≠ a) :
    findTask st tid a = none := by
  apply List.find?_eq_none.mpr
  intro t ht hc
  rw [Bool.and_eq_true, beq_iff_eq, beq_iff_eq] at hc
  exact h t ht hc.1 hc.2

/-- With primary-key-unique ids, the owner-scoped `find?` returns exactly
the owned task. -/
theorem findTask_eq_some (st : TaskStore) (tid : Int) (a : String) (t : Task)
    (ht : t ∈ st.tasks) (hid : t.id = tid) (hu : t.user_id = a)
    (hnodup : (st.tasks.map Task.id).Nodup) :
    findTask st tid a = some t := by
  cases hf : findTask st tid a with
  | none =>
    exfalso
    apply List.find?_eq_none.mp hf t ht
    simp [hid, hu]
  | some t' =>
    have hp := List.find?_some hf
    have hmem := List.mem_of_find?_eq_some hf
    rw [Bool.and_eq_true, beq_iff_eq, beq_iff_eq] at hp
    have heq : t' = t := List.inj_on_of_nodup_map hnodup hmem ht (by rw [hp.1, hid])
    rw [heq]

/-! ## Claims -/

/-- C10: when `list_tasks` is called with an owner that is not a
well-formed identifier it reports the `validation_error` as a ONE-ELEMENT
LIST whose single element is the error mapping, unlike `add_task`,
`complete_task`, `delete_task` and `update_task`, which report the same
condition as a plain error mapping; a caller distinguishing success from
error by result shape must treat `list_tasks` specially. -/
theorem C10_list_tasks_error_shape (owner : String) (tid : Int) (st : TaskStore)
    (title : String) (d : Option String) (status : String)
    (h : pyUuidCanon owner = none) :
    ListTasksTool.run owner status st = .arr [validationErrorValue owner] ∧
    AddTaskTool.run owner title d st = (validationErrorValue owner, st) ∧
    CompleteTaskTool.run owner tid st = (validationErrorValue owner, st) ∧
    DeleteTaskTool.run owner tid st = (validationErrorValue owner, st) ∧
    UpdateTaskTool.run owner tid (some title) d st = (validationErrorValue owner, st) := by
  refine ⟨?_, ?_, ?_, ?_, ?_⟩ <;>
    simp [ListTasksTool.run, AddTaskTool.run, CompleteTaskTool.run,
          DeleteTaskTool.run, UpdateTaskTool.run, h]

/-- Witness for C10 at the concrete ill-formed owner `"bad"`. -/
theorem C10_list_tasks_error_shape_witness :
    ListTasksTool.run "bad" "all" emptyTaskStore = .arr [validationErrorValue "bad"] ∧
    AddTaskTool.run "bad" "x" none emptyTaskStore = (validationErrorValue "bad", emptyTaskStore) ∧
    CompleteTaskTool.run "bad" 1 emptyTaskStore = (validationErrorValue "bad", emptyTaskStore) ∧
    DeleteTaskTool.run "bad" 1 emptyTaskStore = (validationErrorValue "bad", emptyTaskStore) ∧
    UpdateTaskTool.run "bad" 1 (some "x") none emptyTaskStore = (validationErrorValue "bad", emptyTaskStore) :=
  C10_list_tasks_error_shape "bad" 1 emptyTaskStore "x" none "all" rfl

/-- C3, counterexample: a call that reaches `add_task` with an EMPTY title
and a well-formed owner is executed — the result says `created` and a task
row (with the empty title) is inserted — so the declared schema does NOT
reject such a call with a `validation_error` before a task is created in
storage. -/
theorem C3_counterexample_empty_title_created :
    AddTaskTool.run uuidA "" none emptyTaskStore =
      (Value.obj [("task_id", .n 1), ("status", .s "created"), ("title", .s "")],
       { tasks := [{ id := 1, user_id := uuidA, title := "", description := none,
                     completed := false, created_at := 0, updated_at := 0 }],
         nextId := 2, clock := 1 }) := rfl

/-- C3 (amended): an ill-formed owner yields `validation_error` and leaves
storage unchanged; the DECLARED schema (as data) rejects an empty or
over-long title and an over-long description; the execution path never
consults the schema — an empty title (within the column bounds) is
executed and the task created with status `created` — while an over-length
title or description is rejected only by the database's VARCHAR column at
flush: the tool reports `internal_error`, not `validation_error`, and no
task is created. -/
theorem C3_add_task_validation (owner title : String) (d : Option String)
    (st : TaskStore) (args : List (String × Value)) :
    (pyUuidCanon owner = none →
       AddTaskTool.run owner title d st = (validationErrorValue owner, st)) ∧
    (∀ t, getField args "title" = some (Value.s t) →
       (t.length = 0 ∨ 200 < t.length) →
       schemaAccepts ADD_TASK_SCHEMA args = false) ∧
    (∀ dv, getField args "description" = some (Value.s dv) → 1000 < dv.length →
       schemaAccepts ADD_TASK_SCHEMA args = false) ∧
    (∀ u, pyUuidCanon owner = some u → title.length ≤ 200 →
       (∀ dd, d = some dd → dd.length ≤ 1000) →
       (AddTaskTool.run owner title d st).2.tasks.length = st.tasks.length + 1 ∧
       vGet (AddTaskTool.run owner title d st).1 "status" = some (Value.s "created")) ∧
    (∀ u, pyUuidCanon owner = some u →
       (200 < title.length ∨ descTooLong d = true) →
       vGet (AddTaskTool.run owner title d st).1 "error" = some (Value.s "internal_error") ∧
       (AddTaskTool.run owner title d st).2 = st) := by
  refine ⟨fun h => by simp [AddTaskTool.run, h], ?_, ?_, ?_, ?_⟩
  · intro t hfind hlen
    obtain ⟨p, hps, hpm⟩ : ∃ p, args.find? (fun p => p.1 == "title") = some p ∧ p.2 = Value.s t := by
      unfold getField at hfind
      cases hf : args.find? (fun p => p.1 == "title") with
      | none => rw [hf] at hfind; simp at hfind
      | some p => rw [hf] at hfind; exact ⟨p, rfl, by simpa using hfind⟩
    have hkey := List.find?_some hps
    have hmem := List.mem_of_find?_eq_some hps
    rw [beq_iff_eq] at hkey
    obtain ⟨k1, v1⟩ := p
    simp only at hkey hpm
    subst hkey
    subst hpm
    unfold schemaAccepts
    rw [Bool.and_eq_false_iff]
    right
    rw [List.all_eq_false]
    refine ⟨_, hmem, ?_⟩
    have hfp : ADD_TASK_SCHEMA.properties.find? (fun q => q.1 == "title") =
        some ("title", { strProp with minLength := some 1, maxLength := some 200 }) := rfl
    simp only [hfp, valueMatches, strProp]
    rcases hlen with h0 | h0 <;> simp <;> omega
  · intro dv hfind hlen
    obtain ⟨p, hps, hpm⟩ : ∃ p, args.find? (fun p => p.1 == "description") = some p ∧ p.2 = Value.s dv := by
      unfold getField at hfind
      cases hf : args.find? (fun p => p.1 == "description") with
      | none => rw [hf] at hfind; simp at hfind
      | some p => rw [hf] at hfind; exact ⟨p, rfl, by simpa using hfind⟩
    have hkey := List.find?_some hps
    have hmem := List.mem_of_find?_eq_some hps
    rw [beq_iff_eq] at hkey
    obtain ⟨k1, v1⟩ := p
    simp only at hkey hpm
    subst hkey
    subst hpm
    unfold schemaAccepts
    rw [Bool.and_eq_false_iff]
    right
    rw [List.all_eq_false]
    refine ⟨_, hmem, ?_⟩
    have hfp : ADD_TASK_SCHEMA.properties.find? (fun q => q.1 == "description") =
        some ("description", { strProp with maxLength := some 1000 }) := rfl
    simp only [hfp, valueMatches, strProp]
    simp
    omega
  · intro u hu hlen hdesc
    have h1 : ¬ (200 < title.length) := by omega
    have h2 : descTooLong d = false := by
      cases d with
      | none => rfl
      | some dd =>
        have := hdesc dd rfl
        simp only [descTooLong, decide_eq_false_iff_not]
        omega
    simp [AddTaskTool.run, hu, h1, h2, vGet, getField]
  · intro u hu hover
    by_cases h1 : 200 < title.length
    · simp [AddTaskTool.run, hu, h1, varcharErrorValue, vGet, getField]
    · rcases hover with h | h
      · exact absurd h h1
      · simp [AddTaskTool.run, hu, h1, h, varcharErrorValue, vGet, getField]

/-- A 1001-character description, exceeding the schema's 1000-character
bound. -/
def longDescription : String := String.mk (List.replicate 1001 (Char.ofNat 97))

/-- A 201-character title, exceeding the `VARCHAR(200)` column. -/
def longTitle : String := String.mk (List.replicate 201 (Char.ofNat 97))

/-- Witness for C3 (amended): the ill-formed owner `"bad"` is rejected; the
declared schema rejects an empty title and the 1001-character description;
`add_task` with a well-formed owner and empty title still creates a task;
with the 201-character title it returns `internal_error` and stores
nothing. -/
theorem C3_add_task_validation_witness :
    AddTaskTool.run "bad" "x" none emptyTaskStore = (validationErrorValue "bad", emptyTaskStore) ∧
    schemaAccepts ADD_TASK_SCHEMA [("user_id", .s uuidA), ("title", .s "")] = false ∧
    schemaAccepts ADD_TASK_SCHEMA
      [("user_id", .s uuidA), ("title", .s "ok"), ("description", .s longDescription)] = false ∧
    ((AddTaskTool.run uuidA "" none emptyTaskStore).2.tasks.length =
        emptyTaskStore.tasks.length + 1 ∧
     vGet (AddTaskTool.run uuidA "" none emptyTaskStore).1 "status" = some (Value.s "created")) ∧
    (vGet (AddTaskTool.run uuidA longTitle none emptyTaskStore).1 "error" =
        some (Value.s "internal_error") ∧
     (AddTaskTool.run uuidA longTitle none emptyTaskStore).2 = emptyTaskStore) :=
  ⟨(C3_add_task_validation "bad" "x" none emptyTaskStore []).1 rfl,
   (C3_add_task_validation "bad" "x" none emptyTaskStore
      [("user_id", .s uuidA), ("title", .s "")]).2.1 "" rfl (Or.inl rfl),
   (C3_add_task_validation "bad" "x" none emptyTaskStore
      [("user_id", .s uuidA), ("title", .s "ok"), ("description", .s longDescription)]).2.2.1
      longDescription rfl
      (by show 1000 < (List.replicate 1001 (Char.ofNat 97)).length
          rw [List.length_replicate]
          omega),
   (C3_add_task_validation uuidA "" none emptyTaskStore []).2.2.2.1 uuidA rfl
      (by decide) (fun dd h => by cases h),
   (C3_add_task_validation uuidA longTitle none emptyTaskStore []).2.2.2.2 uuidA rfl
      (Or.inl (by
        show 200 < (List.replicate 201 (Char.ofNat 97)).length
        rw [List.length_replicate]
        omega))⟩

/-- The store used for the C4 evaluation: one task owned by `uuidA`, both
timestamps `0`, and a logical clock that has since advanced to `7`. -/
def c4Store : TaskStore :=
  { tasks := [{ id := 1, user_id := uuidA, title := "original title",
                description := some "old description", completed := false,
                created_at := 0, updated_at := 0 }],
    nextId := 2, clock := 7 }

/-- C4, evaluated at the failing input: `update_task` supplying only a
description leaves the title unchanged and changes the description, but
does NOT advance `updated_at` — it stays `0` although the current clock is
`7`.  The `Task` model's docstring calls `updated_at` "auto-updated" and
the REST route refreshes it manually, but no `onupdate` is configured and
the MCP tool never assigns it: the code contradicts the claim (and its own
documentation) on the `updated_at` conjunct. -/
theorem C4_update_only_description :
    UpdateTaskTool.run uuidA 1 none (some "new description") c4Store =
      (Value.obj [("task_id", .n 1), ("status", .s "updated"), ("title", .s "original title")],
       { tasks := [{ id := 1, user_id := uuidA, title := "original title",
                     description := some "new description", completed := false,
                     created_at := 0, updated_at := 0 }],
         nextId := 2, clock := 7 }) := rfl

/-- C5: complete/delete/update called by owner A on a task id that exists
but belongs to a different owner return the `not_found` error mapping and
leave the store untouched; and that result is LITERALLY the same value the
tools return when no task with that id exists at all, so cross-owner
access is indistinguishable from absence. -/
theorem C5_cross_owner_not_found (owner a : String) (tid : Int) (st : TaskStore)
    (title d : Option String)
    (hA : pyUuidCanon owner = some a)
    (hOther : ∀ t ∈ st.tasks, t.id = tid → t.user_id ≠ a)
    (hExists : ∃ t ∈ st.tasks, t.id = tid)
    (hSupplied : title ≠ none ∨ d ≠ none) :
    CompleteTaskTool.run owner tid st = (notFoundValue tid, st) ∧
    DeleteTaskTool.run owner tid st = (notFoundValue tid, st) ∧
    UpdateTaskTool.run owner tid title d st = (notFoundValue tid, st) ∧
    ∀ st₀ : TaskStore, (∀ t ∈ st₀.tasks, t.id ≠ tid) →
      CompleteTaskTool.run owner tid st₀ = (notFoundValue tid, st₀) ∧
      DeleteTaskTool.run owner tid st₀ = (notFoundValue tid, st₀) ∧
      UpdateTaskTool.run owner tid title d st₀ = (notFoundValue tid, st₀) := by
  have hcond : (title.isNone && d.isNone) = false := by
    rcases hSupplied with h | h <;> cases title <;> cases d <;> simp_all
  have hf := findTask_none st tid a hOther
  refine ⟨?_, ?_, ?_, ?_⟩
  · simp [CompleteTaskTool.run, hA, hf]
  · simp [DeleteTaskTool.run, hA, hf]
  · simp [UpdateTaskTool.run, hA, hf, hcond]
  · intro st₀ habs
    have hf₀ := findTask_none st₀ tid a (fun t ht hid => absurd hid (habs t ht))
    exact ⟨by simp [CompleteTaskTool.run, hA, hf₀],
           by simp [DeleteTaskTool.run, hA, hf₀],
           by simp [UpdateTaskTool.run, hA, hf₀, hcond]⟩

/-- The store used in the C5 witness: a single task with id `1` owned by
`uuidB`. -/
def c5Store : TaskStore :=
  { tasks := [{ id := 1, user_id := uuidB, title := "theirs", description := none,
                completed := false, created_at := 0, updated_at := 0 }],
    nextId := 2, clock := 1 }

/-- Witness for C5: owner `uuidA` attacks `uuidB`'s task `1`. -/
theorem C5_cross_owner_not_found_witness :
    CompleteTaskTool.run uuidA 1 c5Store = (notFoundValue 1, c5Store) ∧
    DeleteTaskTool.run uuidA 1 c5Store = (notFoundValue 1, c5Store) ∧
    UpdateTaskTool.run uuidA 1 (some "mine") none c5Store = (notFoundValue 1, c5Store) ∧
    ∀ st₀ : TaskStore, (∀ t ∈ st₀.tasks, t.id ≠ 1) →
      CompleteTaskTool.run uuidA 1 st₀ = (notFoundValue 1, st₀) ∧
      DeleteTaskTool.run uuidA 1 st₀ = (notFoundValue 1, st₀) ∧
      UpdateTaskTool.run uuidA 1 (some "mine") none st₀ = (notFoundValue 1, st₀) :=
  C5_cross_owner_not_found uuidA uuidA 1 c5Store (some "mine") none rfl
    (by decide) (by decide) (Or.inl (by decide))

/-- C7, counterexample: for an owner and `task_id` with no matching owned
task, the FIRST `delete_task` call already returns the `not_found` error
mapping (no `status` field at all), not a success result — so the claim's
universally quantified "success the first time" is false as stated. -/
theorem C7_counterexample_first_call_not_found :
    DeleteTaskTool.run uuidA 1 emptyTaskStore = (notFoundValue 1, emptyTaskStore) ∧
    vGet (DeleteTaskTool.run uuidA 1 emptyTaskStore).1 "status" = none ∧
    vGet (DeleteTaskTool.run uuidA 1 emptyTaskStore).1 "error" = some (Value.s "not_found") :=
  ⟨rfl, rfl, rfl⟩

/-- C7 (amended): when a task with the given id exists and belongs to the
caller, deleting it twice returns the success mapping (status `deleted`
with the pre-deletion title) the first time and the `not_found` error
mapping the second time; neither call raises — both `delete_task` calls
are total functions returning result mappings for every input. -/
theorem C7_delete_twice (owner a : String) (tid : Int) (st : TaskStore) (t : Task)
    (hA : pyUuidCanon owner = some a)
    (ht : t ∈ st.tasks) (hid : t.id = tid) (hu : t.user_id = a)
    (hnodup : (st.tasks.map Task.id).Nodup) :
    ∃ st' : TaskStore,
      DeleteTaskTool.run owner tid st =
        (Value.obj [("task_id", .n tid), ("status", .s "deleted"), ("title", .s t.title)], st') ∧
      DeleteTaskTool.run owner tid st' = (notFoundValue tid, st') := by
  have hf := findTask_eq_some st tid a t ht hid hu hnodup
  refine ⟨{ st with tasks := st.tasks.filter (fun x => !(x.id == t.id)) }, ?_, ?_⟩
  · simp [DeleteTaskTool.run, hA, hf]
  · have hf' : findTask { st with tasks := st.tasks.filter (fun x => !(x.id == t.id)) } tid a = none := by
      apply findTask_none
      intro x hx hxid
      simp only [List.mem_filter] at hx
      exfalso
      have : (x.id == t.id) = true := by rw [beq_iff_eq, hxid, hid]
      simp [this] at hx
    simp [DeleteTaskTool.run, hA, hf']

/-- The store used in the C7 witness: task `1` owned by `uuidA`. -/
def c7Store : TaskStore :=
  { tasks := [{ id := 1, user_id := uuidA, title := "buy milk", description := none,
                completed := false, created_at := 0, updated_at := 0 }],
    nextId := 2, clock := 1 }

/-- Witness for C7 (amended): delete task `1` of `c7Store` twice. -/
theorem C7_delete_twice_witness :
    ∃ st' : TaskStore,
      DeleteTaskTool.run uuidA 1 c7Store =
        (Value.obj [("task_id", .n 1), ("status", .s "deleted"), ("title", .s "buy milk")], st') ∧
      DeleteTaskTool.run uuidA 1 st' = (notFoundValue 1, st') :=
  C7_delete_twice uuidA uuidA 1 c7Store
    { id := 1, user_id := uuidA, title := "buy milk", description := none,
      completed := false, created_at := 0, updated_at := 0 }
    rfl (by decide) rfl rfl (by decide)

/-- C9: for every well-formed owner and status filter, `list_tasks`
returns exactly the owner's matching tasks (as id/title/completed rows),
ordered newest-created first (`created_at` descending), and an owner with
no tasks gets the empty list rather than an error. -/
theorem C9_list_tasks_order (owner a status : String) (st : TaskStore)
    (hA : pyUuidCanon owner = some a) :
    ∃ ts : List Task,
      ListTasksTool.run owner status st = .arr (ts.map taskRow) ∧
      ts.Perm (st.tasks.filter (taskMatches a status)) ∧
      List.Sorted createdDesc ts ∧
      (st.tasks.filter (fun t => t.user_id == a) = [] →
        ListTasksTool.run owner status st = .arr []) := by
  refine ⟨List.insertionSort createdDesc (st.tasks.filter (taskMatches a status)),
    ?_, List.perm_insertionSort _ _, List.sorted_insertionSort _ _, ?_⟩
  · simp [ListTasksTool.run, hA]
  · intro hempty
    have hsub : st.tasks.filter (taskMatches a status) = [] := by
      rw [List.filter_eq_nil_iff] at hempty ⊢
      intro t ht hmatch
      apply hempty t ht
      unfold taskMatches at hmatch
      rw [Bool.and_eq_true] at hmatch
      exact hmatch.1
    simp [ListTasksTool.run, hA, hsub]

/-- The store used in the C9 witness: two tasks for `uuidA` with distinct
creation times, one task for `uuidB`. -/
def c9Store : TaskStore :=
  { tasks := [{ id := 1, user_id := uuidA, title := "older", description := none,
                completed := false, created_at := 0, updated_at := 0 },
              { id := 2, user_id := uuidB, title := "other owner", description := none,
                completed := false, created_at := 1, updated_at := 1 },
              { id := 3, user_id := uuidA, title := "newer", description := none,
                completed := true, created_at := 2, updated_at := 2 }],
    nextId := 4, clock := 3 }

/-- Witness for C9 at a concrete store and the `"all"` filter. -/
theorem C9_list_tasks_order_witness :
    ∃ ts : List Task,
      ListTasksTool.run uuidA "all" c9Store = .arr (ts.map taskRow) ∧
      ts.Perm (c9Store.tasks.filter (taskMatches uuidA "all")) ∧
      List.Sorted createdDesc ts ∧
      (c9Store.tasks.filter (fun t => t.user_id == uuidA) = [] →
        ListTasksTool.run uuidA "all" c9Store = .arr []) :=
  C9_list_tasks_order uuidA uuidA "all" c9Store rfl

/-- A requested tool call that dispatches without raising: known tool name
and successful keyword binding after the owner injection. -/
def callOk (user : String) (req : ToolCallReq) : Bool :=
  knownTool req.name &&
  (bindCall req.name (setKey req.arguments "user_id" (.s user))).isSome

/-- A bindable call to a known tool always produces a result value: every
tool body normalises its failures into `error` mappings. -/
theorem execute_mcp_tool_ok (user : String) (req : ToolCallReq) (st : TaskStore)
    (h : callOk user req = true) :
    ∃ v st', execute_mcp_tool req.name (setKey req.arguments "user_id" (.s user)) st =
      .ok (v, st') := by
  unfold callOk at h
  rw [Bool.and_eq_true] at h
  cases hb : bindCall req.name (setKey req.arguments "user_id" (.s user)) with
  | none => rw [hb] at h; simp at h
  | some c =>
    exact ⟨(runBound c st).1, (runBound c st).2, by simp [execute_mcp_tool, h.1, hb]⟩

/-- When every requested call is dispatchable, the per-step execution
succeeds. -/
theorem execCalls_ok (user : String) :
    ∀ (reqs : List ToolCallReq) (msgs : List Msg) (audit : List AuditEntry) (st : TaskStore),
      (∀ req ∈ reqs, callOk user req = true) →
      ∃ out ds, execCalls user reqs msgs audit st = (.ok out, ds) := by
  intro reqs
  induction reqs with
  | nil => exact fun msgs audit st _ => ⟨(msgs, audit, st), [], rfl⟩
  | cons req rest ih =>
    intro msgs audit st h
    obtain ⟨v, st', hv⟩ := execute_mcp_tool_ok user req st (h req (by simp))
    obtain ⟨out, ds, hout⟩ := ih
      (msgs ++ [Msg.tool req.id req.name (pyStrV v)])
      (audit ++ [{ tool := req.name,
                   arguments := setKey req.arguments "user_id" (Value.s user), result := v }])
      st' (fun r hr => h r (by simp [hr]))
    refine ⟨out, (req.name, setKey req.arguments "user_id" (.s user)) :: ds, ?_⟩
    simp [execCalls, hv, hout]

/-- Every dispatch the per-step execution logs carries the injected
authenticated owner under `user_id`. -/
theorem execCalls_dispatched_user (user : String) :
    ∀ (reqs : List ToolCallReq) (msgs : List Msg) (audit : List AuditEntry) (st : TaskStore)
      (d : String × List (String × Value)),
      d ∈ (execCalls user reqs msgs audit st).2 →
      getField d.2 "user_id" = some (.s user) := by
  intro reqs
  induction reqs with
  | nil => intro msgs audit st d hd; simp [execCalls] at hd
  | cons req rest ih =>
    intro msgs audit st d hd
    rw [execCalls] at hd
    cases hx : execute_mcp_tool req.name (setKey req.arguments "user_id" (.s user)) st with
    | error e =>
      rw [hx] at hd
      simp at hd
      rw [hd]
      exact getField_setKey _ _ _
    | ok p =>
      rw [hx] at hd
      simp at hd
      rcases hd with hd | hd
      · rw [hd]
        exact getField_setKey _ _ _
      · exact ih _ _ _ _ hd

/-- The loop makes at most `fuel` reasoning calls, whatever the engine
does. -/
theorem runLoop_calls_le (engine : Engine) (user : String) :
    ∀ (fuel : Nat) (msgs : List Msg) (audit : List AuditEntry) (iters : Nat) (st : TaskStore),
      (runLoop engine user fuel msgs audit iters st).2.engineCalls ≤ fuel := by
  intro fuel
  induction fuel with
  | zero => intro msgs audit iters st; simp [runLoop]
  | succ n ih =>
    intro msgs audit iters st
    cases h : (engine msgs).tool_calls with
    | nil =>
      simp only [runLoop, h]
      show (1 : Nat) ≤ n + 1
      omega
    | cons r rs =>
      cases hx : execCalls user (r :: rs)
          (msgs ++ [Msg.assistant ((engine msgs).content.getD "") (r :: rs)]) audit st with
      | mk res ds =>
        cases res with
        | error e =>
          simp only [runLoop, h, hx]
          show (1 : Nat) ≤ n + 1
          omega
        | ok out =>
          obtain ⟨msgs2, audit2, st2⟩ := out
          simp only [runLoop, h, hx]
          show (runLoop engine user n msgs2 audit2 (iters + 1) st2).2.engineCalls + 1 ≤ n + 1
          have hle := ih msgs2 audit2 (iters + 1) st2
          omega

/-- Every dispatch the whole loop logs carries the injected owner. -/
theorem runLoop_dispatched_user (engine : Engine) (user : String) :
    ∀ (fuel : Nat) (msgs : List Msg) (audit : List AuditEntry) (iters : Nat) (st : TaskStore)
      (d : String × List (String × Value)),
      d ∈ (runLoop engine user fuel msgs audit iters st).2.dispatched →
      getField d.2 "user_id" = some (.s user) := by
  intro fuel
  induction fuel with
  | zero => intro msgs audit iters st d hd; simp [runLoop] at hd
  | succ n ih =>
    intro msgs audit iters st d hd
    cases h : (engine msgs).tool_calls with
    | nil => simp [runLoop, h] at hd
    | cons r rs =>
      cases hx : execCalls user (r :: rs)
          (msgs ++ [Msg.assistant ((engine msgs).content.getD "") (r :: rs)]) audit st with
      | mk res ds =>
        cases res with
        | error e =>
          simp only [runLoop, h, hx] at hd
          have hmem : d ∈ (execCalls user (r :: rs)
              (msgs ++ [Msg.assistant ((engine msgs).content.getD "") (r :: rs)]) audit st).2 := by
            rw [hx]; simpa using hd
          exact execCalls_dispatched_user user _ _ _ _ _ hmem
        | ok out =>
          obtain ⟨msgs2, audit2, st2⟩ := out
          simp only [runLoop, h, hx] at hd
          simp at hd
          rcases hd with hd | hd
          · have hmem : d ∈ (execCalls user (r :: rs)
                (msgs ++ [Msg.assistant ((engine msgs).content.getD "") (r :: rs)]) audit st).2 := by
              rw [hx]; simpa using hd
            exact execCalls_dispatched_user user _ _ _ _ _ hmem
          · exact ih _ _ _ _ _ hd

/-- Under an engine that always requests dispatchable tool calls, the loop
burns its whole budget and returns the apologetic budget-exceeded
result. -/
theorem runLoop_budget (engine : Engine) (user : String)
    (H1 : ∀ ms, (engine ms).tool_calls ≠ [])
    (H2 : ∀ ms req, req ∈ (engine ms).tool_calls → callOk user req = true) :
    ∀ (fuel : Nat) (msgs : List Msg) (audit : List AuditEntry) (iters : Nat) (st : TaskStore),
      ∃ trail st' ds,
        runLoop engine user fuel msgs audit iters st =
          (.ok ({ assistant_message := some apologyMessage, tool_calls := trail,
                  iterations := iters + fuel, error := some "max_iterations_reached" }, st'),
           { engineCalls := fuel, dispatched := ds }) := by
  intro fuel
  induction fuel with
  | zero => intro msgs audit iters st; exact ⟨audit, st, [], by simp [runLoop]⟩
  | succ n ih =>
    intro msgs audit iters st
    cases h : (engine msgs).tool_calls with
    | nil => exact absurd h (H1 msgs)
    | cons r rs =>
      obtain ⟨out, ds0, hout⟩ := execCalls_ok user (r :: rs)
        (msgs ++ [Msg.assistant ((engine msgs).content.getD "") (r :: rs)]) audit st
        (fun req hreq => H2 msgs req (by rw [h]; exact hreq))
      obtain ⟨msgs2, audit2, st2⟩ := out
      obtain ⟨trail, st', ds, hrec⟩ := ih msgs2 audit2 (iters + 1) st2
      refine ⟨trail, st', ds0 ++ ds, ?_⟩
      have harith : iters + 1 + n = iters + (n + 1) := by omega
      rw [harith] at hrec
      simp only [runLoop, h, hout, hrec]

/-- C1, counterexample to the claim as stated: an engine that requests a
tool call on EVERY reasoning step, but names a tool outside the catalog,
makes the loop raise the dispatch `ValueError` after ONE reasoning call —
the run neither performs `max_iterations` (5) reasoning calls nor returns
the apologetic budget-exceeded result. -/
theorem C1_counterexample_unknown_tool_raises :
    AgentRunner.run (fun _ => ⟨none, [⟨"c1", "bogus_tool", []⟩]⟩) uuidA [] 5 emptyTaskStore =
      (.error "Unknown tool: bogus_tool",
       { engineCalls := 1, dispatched := [("bogus_tool", [("user_id", Value.s uuidA)])] }) := rfl

/-- C1 (amended): the orchestration loop makes at most `max_iterations`
reasoning calls for EVERY engine; the default budget is 5; and for an
engine that requests at least one tool call on every reasoning step, all
of whose requested calls name catalog tools and bind to their keyword
parameters (`callOk` — an unknown name or a keyword-name mismatch instead
makes the loop raise the dispatch exception, see the counterexample), the
loop makes exactly `max_iterations` reasoning calls and then RETURNS the
fixed apologetic message together with the accumulated tool-call audit
trail and the explicit `max_iterations_reached` marker, rather than
raising. -/
theorem C1_iteration_budget (engine : Engine) (user : String) (messages : List Msg)
    (maxIter : Nat) (st : TaskStore) :
    (AgentRunner.run engine user messages maxIter st).2.engineCalls ≤ maxIter ∧
    defaultMaxIterations = 5 ∧
    ((∀ ms, (engine ms).tool_calls ≠ []) →
     (∀ ms req, req ∈ (engine ms).tool_calls → callOk user req = true) →
      ∃ trail st' ds,
        AgentRunner.run engine user messages maxIter st =
          (.ok ({ assistant_message := some apologyMessage, tool_calls := trail,
                  iterations := maxIter, error := some "max_iterations_reached" }, st'),
           { engineCalls := maxIter, dispatched := ds })) := by
  refine ⟨runLoop_calls_le engine user maxIter _ [] 0 st, rfl, fun H1 H2 => ?_⟩
  obtain ⟨trail, st', ds, h⟩ :=
    runLoop_budget engine user H1 H2 maxIter ([Msg.system get_system_prompt] ++ messages) [] 0 st
  refine ⟨trail, st', ds, ?_⟩
  unfold AgentRunner.run
  rw [h]
  simp

/-- Witness for C1: an engine that always requests one `list_tasks` call
exhausts the default budget of 5. -/
theorem C1_iteration_budget_witness :
    ((AgentRunner.run (fun _ => ⟨none, [⟨"call_1", "list_tasks", []⟩]⟩)
        uuidA [] 5 emptyTaskStore).2.engineCalls ≤ 5) ∧
    (∃ trail st' ds,
      AgentRunner.run (fun _ => ⟨none, [⟨"call_1", "list_tasks", []⟩]⟩)
          uuidA [] 5 emptyTaskStore =
        (.ok ({ assistant_message := some apologyMessage, tool_calls := trail,
                iterations := 5, error := some "max_iterations_reached" }, st'),
         { engineCalls := 5, dispatched := ds })) :=
  ⟨(C1_iteration_budget (fun _ => ⟨none, [⟨"call_1", "list_tasks", []⟩]⟩)
      uuidA [] 5 emptyTaskStore).1,
   (C1_iteration_budget (fun _ => ⟨none, [⟨"call_1", "list_tasks", []⟩]⟩)
      uuidA [] 5 emptyTaskStore).2.2
     (fun _ => by simp)
     (fun _ req hreq => by
        rw [List.mem_singleton] at hreq
        subst hreq
        rfl)⟩

/-- C2: every tool dispatch the orchestration loop performs passes the
AUTHENTICATED caller's `user_id` — the injection overwrites whatever
`user_id` the engine put in its requested arguments, for every engine,
every budget and every store. -/
theorem C2_owner_injection (engine : Engine) (user : String) (messages : List Msg)
    (maxIter : Nat) (st : TaskStore) (d : String × List (String × Value))
    (hd : d ∈ (AgentRunner.run engine user messages maxIter st).2.dispatched) :
    getField d.2 "user_id" = some (.s user) :=
  runLoop_dispatched_user engine user maxIter _ [] 0 st d hd

/-- Witness for C2: the engine requests `add_task` impersonating `uuidB`;
the dispatched arguments carry the authenticated `uuidA`. -/
theorem C2_owner_injection_witness :
    getField [("user_id", Value.s uuidA), ("title", Value.s "t")] "user_id" =
      some (Value.s uuidA) :=
  C2_owner_injection
    (fun _ => ⟨none, [⟨"c1", "add_task", [("user_id", Value.s uuidB), ("title", Value.s "t")]⟩]⟩)
    uuidA [] 1 emptyTaskStore
    ("add_task", [("user_id", Value.s uuidA), ("title", Value.s "t")])
    (by
      rw [show (AgentRunner.run
          (fun _ => ⟨none, [⟨"c1", "add_task",
            [("user_id", Value.s uuidB), ("title", Value.s "t")]⟩]⟩)
          uuidA [] 1 emptyTaskStore).2.dispatched =
        [("add_task", [("user_id", Value.s uuidA), ("title", Value.s "t")])] from rfl]
      exact List.mem_singleton.mpr rfl)

/-- `orderedInsert` appends at the end when the inserted element is not
related to anything present. -/
theorem orderedInsert_concat {α : Type} (r : α → α → Prop) [DecidableRel r] (a : α) :
    ∀ (m : List α), (∀ b ∈ m, ¬ r a b) → m.orderedInsert r a = m ++ [a] := by
  intro m
  induction m with
  | nil => intro _; rfl
  | cons b m ih =>
    intro h
    rw [List.orderedInsert, if_neg (h b (by simp)), ih (fun c hc => h c (by simp [hc]))]
    rfl

/-- Sorting a strictly ascending message list by descending `created_at`
reverses it (`ORDER BY created_at DESC` on chronologically inserted
rows). -/
theorem insertionSort_desc_of_ascending :
    ∀ (l : List Message), l.Pairwise (fun x y => x.created_at < y.created_at) →
      List.insertionSort msgCreatedDesc l = l.reverse := by
  intro l
  induction l with
  | nil => intro _; rfl
  | cons a l ih =>
    intro h
    rw [List.insertionSort, ih (List.Pairwise.of_cons h),
        orderedInsert_concat msgCreatedDesc a l.reverse ?_, List.reverse_cons]
    intro b hb
    rw [List.mem_reverse] at hb
    have hlt := (List.pairwise_cons.mp h).1 b hb
    unfold msgCreatedDesc
    omega

/-- The messages of one conversation, in insertion order. -/
def MsgsOfC (st : ConvStore) (cid : Int) : List Message :=
  st.msgs.filter (fun m => m.conversation_id == cid)

/-- Running a batch of `store_message` calls on a conversation extends its
message list in call order with strictly increasing timestamps, keeps the
conversation present and never raises, as long as every role is valid. -/
theorem appendAll_spec (cid : Int) (owner : String) :
    ∀ (L : List (String × String)) (st : ConvStore) (M : List Message),
      (∃ c ∈ st.convs, c.id = cid ∧ c.user_id = owner) →
      MsgsOfC st cid = M →
      M.Pairwise (fun x y => x.created_at < y.created_at) →
      (∀ m ∈ M, m.created_at < st.clock) →
      (∀ rc ∈ L, rc.1 = "user" ∨ rc.1 = "assistant") →
      ∃ st' M',
        appendAll st cid owner L = .ok st' ∧
        MsgsOfC st' cid = M ++ M' ∧
        (M ++ M').Pairwise (fun x y => x.created_at < y.created_at) ∧
        (∀ m ∈ M ++ M', m.created_at < st'.clock) ∧
        M'.map (fun m => (m.role, m.content)) = L ∧
        (∃ c ∈ st'.convs, c.id = cid ∧ c.user_id = owner) := by
  intro L
  induction L with
  | nil =>
    intro st M hc hM hpw hbound _
    exact ⟨st, [], rfl, by simpa using hM, by simpa using hpw, by simpa using hbound, rfl, hc⟩
  | cons rc L ih =>
    obtain ⟨role, content⟩ := rc
    intro st M hc hM hpw hbound hroles
    have hrole : role = "user" ∨ role = "assistant" := by
      simpa using hroles (role, content) (by simp)
    have hrolecond : (!(role == "user" || role == "assistant")) = false := by
      rcases hrole with h | h <;> simp [h]
    obtain ⟨c, hcmem, hcid, hcuser⟩ := hc
    have hfindSome : (st.convs.find? (fun c => c.id == cid && c.user_id == owner)).isSome = true := by
      rw [List.find?_isSome]
      exact ⟨c, hcmem, by simp [hcid, hcuser]⟩
    obtain ⟨c', hc'⟩ := Option.isSome_iff_exists.mp hfindSome
    have hc'' : findConv st cid owner = some c' := hc'
    set m : Message := { id := st.nextMsgId, conversation_id := cid, user_id := owner,
                         role := role, content := content, created_at := st.clock } with hm
    set st1 : ConvStore :=
      { st with
        msgs := st.msgs ++ [m],
        nextMsgId := st.nextMsgId + 1,
        convs := st.convs.map (fun cc =>
          if cc.id == cid then { cc with updated_at := st.clock + 1 } else cc),
        clock := st.clock + 2 } with hst1
    have hstep : store_message st cid owner role content = .ok (m, st1) := by
      unfold store_message
      rw [hrolecond, hc'']
      rfl
    have hc1 : ∃ cc ∈ st1.convs, cc.id = cid ∧ cc.user_id = owner := by
      refine ⟨if c.id == cid then { c with updated_at := st.clock + 1 } else c,
        List.mem_map_of_mem _ hcmem, ?_⟩
      by_cases hcc : (c.id == cid) = true <;> simp [hcc, hcid, hcuser]
    have hM1 : MsgsOfC st1 cid = M ++ [m] := by
      unfold MsgsOfC at hM ⊢
      simp only [hst1, List.filter_append, hM]
      simp [hm]
    have hpw1 : (M ++ [m]).Pairwise (fun x y => x.created_at < y.created_at) := by
      rw [List.pairwise_append]
      exact ⟨hpw, by simp, fun x hx y hy => by
        rw [List.mem_singleton] at hy
        subst hy
        simpa [hm] using hbound x hx⟩
    have hbound1 : ∀ x ∈ M ++ [m], x.created_at < st1.clock := by
      intro x hx
      rcases List.mem_append.mp hx with hx | hx
      · have := hbound x hx
        simp only [hst1]
        omega
      · rw [List.mem_singleton] at hx
        subst hx
        simp [hm, hst1]
    obtain ⟨st', M'', happ, hmsgs, hpw', hbound', hmap, hconv⟩ :=
      ih st1 (M ++ [m]) hc1 hM1 hpw1 hbound1 (fun r hr => hroles r (by simp [hr]))
    refine ⟨st', m :: M'', ?_, ?_, ?_, ?_, ?_, hconv⟩
    · rw [appendAll, hstep]
      exact happ
    · rw [hmsgs, List.append_assoc]
      rfl
    · simpa [List.append_assoc] using hpw'
    · intro x hx
      exact hbound' x (by simpa [List.append_assoc] using hx)
    · simp [hmap, hm]

/-- C6: appending N messages to a fresh conversation and immediately
reading its recent messages returns exactly those N messages in call order
(oldest first), whenever N does not exceed the retrieval limit —
`get_conversation_messages` selects the newest `limit` rows by
`created_at` descending and reverses them into chronological order. -/
theorem C6_recent_messages_roundtrip (st : ConvStore) (owner : String)
    (L : List (String × String)) (limit : Nat)
    (hWF : ∀ m ∈ st.msgs, m.conversation_id ≠ st.nextConvId)
    (hroles : ∀ rc ∈ L, rc.1 = "user" ∨ rc.1 = "assistant")
    (hlen : L.length ≤ limit) :
    ∃ conv st1 st2,
      get_or_create_conversation st owner none = .ok (conv, st1) ∧
      appendAll st1 conv.id owner L = .ok st2 ∧
      get_conversation_messages st2 conv.id owner limit = .ok L := by
  set conv : Conversation :=
    { id := st.nextConvId, user_id := owner,
      created_at := st.clock, updated_at := st.clock + 1 } with hconvdef
  set st1 : ConvStore :=
    { st with convs := st.convs ++ [conv], nextConvId := st.nextConvId + 1,
              clock := st.clock + 2 } with hst1
  have hM0 : MsgsOfC st1 conv.id = [] := by
    unfold MsgsOfC
    rw [List.filter_eq_nil_iff]
    intro m hm
    simp only [hst1] at hm
    have hne := hWF m hm
    simp [hconvdef, hne]
  have hcex : ∃ c ∈ st1.convs, c.id = conv.id ∧ c.user_id = owner :=
    ⟨conv, by simp [hst1], rfl, rfl⟩
  obtain ⟨st2, M', happ, hmsgs, hpw, _hbound, hmap, hconv2⟩ :=
    appendAll_spec conv.id owner L st1 [] hcex hM0 (by simp) (by simp) hroles
  obtain ⟨c2, hcm, hcid, hcu⟩ := hconv2
  have hfindSome : (st2.convs.find? (fun c => c.id == conv.id && c.user_id == owner)).isSome = true := by
    rw [List.find?_isSome]
    exact ⟨c2, hcm, by simp [hcid, hcu]⟩
  obtain ⟨c', hc'⟩ := Option.isSome_iff_exists.mp hfindSome
  have hc'' : findConv st2 conv.id owner = some c' := hc'
  have hlenM : M'.length = L.length := by rw [← hmap, List.length_map]
  have hms : st2.msgs.filter (fun m => m.conversation_id == conv.id) = M' := by
    have h0 := hmsgs
    unfold MsgsOfC at h0
    simpa using h0
  have hget : get_conversation_messages st2 conv.id owner limit = .ok L := by
    simp only [get_conversation_messages, hc'']
    rw [hms, insertionSort_desc_of_ascending M' (by simpa using hpw),
        List.take_of_length_le (by rw [List.length_reverse, hlenM]; exact hlen),
        List.reverse_reverse, hmap]
  exact ⟨conv, st1, st2, rfl, happ, hget⟩

/-- Witness for C6: two messages appended to a fresh conversation of an
empty store come back in order under the default limit of 50. -/
theorem C6_recent_messages_roundtrip_witness :
    ∃ conv st1 st2,
      get_or_create_conversation emptyConvStore uuidA none = .ok (conv, st1) ∧
      appendAll st1 conv.id uuidA [("user", "hi"), ("assistant", "hello")] = .ok st2 ∧
      get_conversation_messages st2 conv.id uuidA 50 =
        .ok [("user", "hi"), ("assistant", "hello")] :=
  C6_recent_messages_roundtrip emptyConvStore uuidA
    [("user", "hi"), ("assistant", "hello")] 50
    (by simp [emptyConvStore]) (by decide) (by decide)

theorem except_bind_ok {ε α β : Type} (a : α) (f : α → Except ε β) :
    ((Except.ok a : Except ε α) >>= f) = f a := rfl

theorem except_bind_err {ε α β : Type} (e : ε) (f : α → Except ε β) :
    ((Except.error e : Except ε α) >>= f) = .error e := rfl

/-- Appending the fallback note never yields the empty string, so the
Python `or` chain keeps the annotated fallback reply. -/
theorem append_mockNote_ne_empty (s : String) : ((s ++ mockNote) == "") = false := by
  rw [beq_eq_false_iff_ne]
  intro hc
  have hlen := congrArg String.length hc
  rw [String.length_append] at hlen
  have h0 : 0 < mockNote.length := by decide
  simp at hlen
  omega

/-- Updating a conversation's `updated_at` preserves id-and-owner
membership. -/
theorem conv_mem_map_update (convs : List Conversation) (cid : Int) (user : String)
    (u : Nat) (hex : ∃ c ∈ convs, c.id = cid ∧ c.user_id = user) :
    ∃ c ∈ convs.map (fun cc => if cc.id == cid then { cc with updated_at := u } else cc),
      c.id = cid ∧ c.user_id = user := by
  obtain ⟨c, hcm, hcid, hcu⟩ := hex
  refine ⟨if c.id == cid then { c with updated_at := u } else c,
    List.mem_map_of_mem _ hcm, ?_⟩
  by_cases hcc : (c.id == cid) = true <;> simp [hcc, hcid, hcu]

/-- `store_message` succeeds whenever the role is valid and the
conversation is present and owned; the conversations list afterwards is
the `updated_at`-bumping map. -/
theorem store_message_ok (cs : ConvStore) (cid : Int) (user role content : String)
    (hrole : role = "user" ∨ role = "assistant")
    (hex : ∃ c ∈ cs.convs, c.id = cid ∧ c.user_id = user) :
    ∃ m cs', store_message cs cid user role content = .ok (m, cs') ∧
      cs'.convs = cs.convs.map
        (fun cc => if cc.id == cid then { cc with updated_at := cs.clock + 1 } else cc) := by
  obtain ⟨c, hcm, hcid, hcu⟩ := hex
  have hcond : (!(role == "user" || role == "assistant")) = false := by
    rcases hrole with h | h <;> simp [h]
  have hfs : (cs.convs.find? (fun cc => cc.id == cid && cc.user_id == user)).isSome = true := by
    rw [List.find?_isSome]
    exact ⟨c, hcm, by simp [hcid, hcu]⟩
  obtain ⟨cf, hcf⟩ := Option.isSome_iff_exists.mp hfs
  have hcf' : findConv cs cid user = some cf := hcf
  refine ⟨{ id := cs.nextMsgId, conversation_id := cid, user_id := user, role := role,
            content := content, created_at := cs.clock },
          { cs with
            msgs := cs.msgs ++ [{ id := cs.nextMsgId, conversation_id := cid,
                                  user_id := user, role := role, content := content,
                                  created_at := cs.clock }],
            nextMsgId := cs.nextMsgId + 1,
            convs := cs.convs.map
              (fun cc => if cc.id == cid then { cc with updated_at := cs.clock + 1 } else cc),
            clock := cs.clock + 2 }, ?_, rfl⟩
  simp only [store_message, hcond, hcf', Bool.false_eq_true, if_false]

/-- C8: for a chat turn whose reasoning-engine attempt fails, a failure
text carrying a quota/rate/429 marker diverts the turn to the mock
fallback responder and still yields a successful reply, annotated with the
fallback note (the capacity error is not surfaced to the client); a
failure without such a marker propagates as a hard error for the turn. -/
theorem C8_quota_fallback (cstore : ConvStore) (user reqMessage e : String)
    (oracle : RegexOracle) (tsFail : TaskStore) :
    (isQuotaError e = true →
      ∃ r cs ts pre,
        chat cstore user reqMessage none (.fail e tsFail) oracle = .ok (r, cs, ts) ∧
        r.message = pre ++ mockNote) ∧
    (isQuotaError e = false →
      chat cstore user reqMessage none (.fail e tsFail) oracle = .error e) := by
  set conv0 : Conversation :=
    { id := cstore.nextConvId, user_id := user,
      created_at := cstore.clock, updated_at := cstore.clock + 1 } with hconv0
  set cs1 : ConvStore :=
    { cstore with convs := cstore.convs ++ [conv0], nextConvId := cstore.nextConvId + 1,
                  clock := cstore.clock + 2 } with hcs1
  have hgc : get_or_create_conversation cstore user none = Except.ok (conv0, cs1) := rfl
  have hex1 : ∃ c ∈ cs1.convs, c.id = conv0.id ∧ c.user_id = user :=
    ⟨conv0, by simp [hcs1], rfl, rfl⟩
  have hfindSome : (cs1.convs.find? (fun c => c.id == conv0.id && c.user_id == user)).isSome = true := by
    rw [List.find?_isSome]
    exact ⟨conv0, by simp [hcs1], by simp⟩
  obtain ⟨c1, hc1⟩ := Option.isSome_iff_exists.mp hfindSome
  have hc1' : findConv cs1 conv0.id user = some c1 := hc1
  obtain ⟨H, hH⟩ : ∃ H, get_conversation_messages cs1 conv0.id user 50 = .ok H := by
    cases hg : get_conversation_messages cs1 conv0.id user 50 with
    | error e' =>
      simp only [get_conversation_messages, hc1'] at hg
      exact Except.noConfusion hg
    | ok H => exact ⟨H, rfl⟩
  constructor
  · intro hq
    have hmockEq : pyReplyText
        (some ((MockAgentRunner.run oracle user (H ++ [("user", reqMessage)]) tsFail).1 ++ mockNote))
        none =
        (MockAgentRunner.run oracle user (H ++ [("user", reqMessage)]) tsFail).1 ++ mockNote := by
      simp [pyReplyText, orTruthy, append_mockNote_ne_empty]
    obtain ⟨m1, cs2, hs1, hconvs2⟩ :=
      store_message_ok cs1 conv0.id user "user" reqMessage (Or.inl rfl) hex1
    have hex2 : ∃ c ∈ cs2.convs, c.id = conv0.id ∧ c.user_id = user := by
      rw [hconvs2]
      exact conv_mem_map_update cs1.convs conv0.id user (cs1.clock + 1) hex1
    obtain ⟨m2, cs3, hs2, _⟩ :=
      store_message_ok cs2 conv0.id user "assistant"
        (pyReplyText
          (some ((MockAgentRunner.run oracle user (H ++ [("user", reqMessage)]) tsFail).1 ++ mockNote))
          none)
        (Or.inr rfl) hex2
    refine ⟨{ conversation_id := conv0.id,
              message := pyReplyText
                (some ((MockAgentRunner.run oracle user (H ++ [("user", reqMessage)]) tsFail).1 ++ mockNote))
                none,
              tool_calls := (MockAgentRunner.run oracle user (H ++ [("user", reqMessage)]) tsFail).2.1 },
            cs3,
            (MockAgentRunner.run oracle user (H ++ [("user", reqMessage)]) tsFail).2.2,
            (MockAgentRunner.run oracle user (H ++ [("user", reqMessage)]) tsFail).1, ?_, hmockEq⟩
    unfold chat
    rw [hgc, except_bind_ok]
    simp only
    rw [hH, except_bind_ok]
    simp only [hq, if_true]
    rw [except_bind_ok]
    simp only
    rw [hs1, except_bind_ok]
    simp only
    rw [hs2, except_bind_ok]
  · intro hq
    unfold chat
    rw [hgc, except_bind_ok]
    simp only
    rw [hH, except_bind_ok]
    simp only [hq, Bool.false_eq_true, if_false]
    rw [except_bind_err]

/-- Witness for C8: a quota-marked failure produces an annotated fallback
reply; a plain failure propagates. -/
theorem C8_quota_fallback_witness :
    (∃ r cs ts pre,
      chat emptyConvStore uuidA "zzz" none (.fail "insufficient_quota" emptyTaskStore)
          ⟨none, none, none⟩ = .ok (r, cs, ts) ∧
      r.message = pre ++ mockNote) ∧
    chat emptyConvStore uuidA "zzz" none (.fail "boom" emptyTaskStore)
        ⟨none, none, none⟩ = .error "boom" :=
  ⟨(C8_quota_fallback emptyConvStore uuidA "zzz" "insufficient_quota"
      ⟨none, none, none⟩ emptyTaskStore).1 rfl,
   (C8_quota_fallback emptyConvStore uuidA "zzz" "boom"
      ⟨none, none, none⟩ emptyTaskStore).2 rfl⟩

end TodoChat
